import Mathlib

/-!
# Verification of the VRL client ingestion–correlation–delivery pipeline

Shallow embedding of the pipeline's core modules (`parser.py`, `analyser.py`,
`sender.py`) and proofs of the specification's testable properties.

Modelling conventions:
* a row of the `packets` table is a `Packet`; SQL timestamps (`created_at`)
  and parsed event times are rationals (the code compares them totally);
* the `sent` status column keeps the code's integer encoding
  (`0`/`2` = pending create/update, `1` = synced, `-1` handled by the
  analyser's target query);
* Python truthiness on optional strings (`None`/`""` falsy) is `strTruthy`;
* SQL `UPDATE ... WHERE callsign = ?` never matches when the bound value is
  NULL, which is why `k1NewFor` requires a present callsign.
-/

attribute [local semireducible] Rat.add Rat.sub Rat.mul Rat.ofScientific

/-- A row of the `packets` table, restricted to the columns the correlation
and delivery code reads or writes.  `ts` is the numeric value of
`parse_event_time(event_time)`; `createdAt` the numeric value of the
store-assigned `created_at` column. -/
structure Packet where
  uuid : Nat
  ptype : Int
  callsign : Option String
  ts : ℚ
  faithfulness : Int
  sent : Int
  createdAt : ℚ
deriving DecidableEq

/-- Python truthiness of an optional string: `None` and `""` are falsy. -/
def strTruthy : Option String → Bool
  | none => false
  | some s => !(s == "")

/-- `analyze_k1_packets`: window membership of a row for the frequency pass
(`type = 1 AND sent = 1 AND created_at >= now - 30s`). -/
def k1Eligible (now : ℚ) (p : Packet) : Bool :=
  (p.ptype == 1) && (p.sent == 1) && decide (now - 30 ≤ p.createdAt)

/-- `analyze_k1_packets`: the per-callsign `COUNT(*)` of the grouped query. -/
def k1Count (now : ℚ) (db : List Packet) (cs : Option String) : Nat :=
  ((db.filter (k1Eligible now)).filter (fun q => q.callsign == cs)).length

/-- `analyze_k1_packets`: count → recomputed faithfulness
(`none` is the hysteresis band `[2,5)`, which issues no update). -/
def k1NewFaith (count : Nat) : Option Int :=
  if count < 2 then some 30
  else if count < 5 then none
  else if count < 10 then some 75
  else if count < 20 then some 90
  else some 100

/-- The recomputed faithfulness the K1 pass would apply to row `p`, if any.
The SQL `UPDATE ... WHERE callsign = ?` can only hit rows whose callsign
equals the (non-NULL) group key, hence the `callsign ≠ NULL` guard. -/
def k1NewFor (now : ℚ) (db : List Packet) (p : Packet) : Option Int :=
  if k1Eligible now p && !(p.callsign == none) then
    k1NewFaith (k1Count now db p.callsign)
  else none

/-- Whether the K1 `UPDATE` statement hits row `p`
(`... AND faithfulness != ? ...`). -/
def k1Written (now : ℚ) (db : List Packet) (p : Packet) : Bool :=
  match k1NewFor now db p with
  | some nf => !(p.faithfulness == nf)
  | none => false

/-- Effect of `analyze_k1_packets` on one row
(`SET faithfulness = ?, sent = 2`). -/
def k1Apply (now : ℚ) (db : List Packet) (p : Packet) : Packet :=
  match k1NewFor now db p with
  | some nf => if p.faithfulness == nf then p else { p with faithfulness := nf, sent := 2 }
  | none => p

/-- `analyze_k1_packets`: the updated table and the summed `rowcount`. -/
def analyze_k1 (now : ℚ) (db : List Packet) : List Packet × Nat :=
  (db.map (k1Apply now db), (db.filter (k1Written now db)).length)

/-- `load_context_packets` followed by the K1 pre-filter of
`analyze_k2_packets`: rows of the last 120 s, ordered by event time, kept
when `type == 1 and callsign` is truthy. -/
def k1Context (now : ℚ) (db : List Packet) : List Packet :=
  (List.insertionSort (fun a b : Packet => a.ts ≤ b.ts)
      (db.filter (fun p => decide (now - 120 ≤ p.createdAt)))).filter
    (fun p => (p.ptype == 1) && strTruthy p.callsign)

/-- `analyze_k2_packets`: membership in the target query
(`type = 2 AND sent IN (-1, 1) AND created_at BETWEEN now-100s AND now-20s`). -/
def k2TargetPred (now : ℚ) (p : Packet) : Bool :=
  (p.ptype == 2) && ((p.sent == -1) || (p.sent == 1)) &&
  decide (now - 100 ≤ p.createdAt) && decide (p.createdAt ≤ now - 20)

/-- `analyze_k2_packets`: the rows selected for binding. -/
def k2Targets (now : ℚ) (db : List Packet) : List Packet :=
  db.filter (k2TargetPred now)

/-- Global disambiguation bonus: 20 when exactly one distinct callsign occurs
among context identity rows within ±20 s of the target's time. -/
def globalBonus (k1s : List Packet) (t : ℚ) : Int :=
  if ((k1s.filter (fun k1 => decide (|k1.ts - t| ≤ 20))).map Packet.callsign).dedup.length = 1
  then 20 else 0

/-- Proximity step of `analyze_k2_packets`: candidate identity rows within
±2 s that do not conflict with an already-attached callsign, the closest one
by the code's strict-improvement scan starting at `min_diff = 100`, and the
collision check on distinct candidate callsigns.  Returns the proximity bonus
and the (possibly adopted) callsign. -/
def k2Prox (k1s : List Packet) (k2 : Packet) : Int × Option String :=
  let cands := k1s.filter (fun k1 =>
    (!(strTruthy k2.callsign) || (k1.callsign == k2.callsign)) &&
    decide (|k1.ts - k2.ts| ≤ 2))
  let scan := cands.foldl
    (fun acc k1 => if |k1.ts - k2.ts| < acc.1 then (|k1.ts - k2.ts|, some k1) else acc)
    ((100 : ℚ), (none : Option Packet))
  match scan.2 with
  | some closest =>
      if (cands.map Packet.callsign).dedup.length = 1 then
        if scan.1 ≤ 1 then (50, closest.callsign)
        else if scan.1 ≤ 2 then (20, closest.callsign)
        else (0, k2.callsign)
      else (0, k2.callsign)
  | none => (0, k2.callsign)

/-- Confidence recomputed from scratch, before the `min(·, 100)` clamp. -/
def k2RawScore (k1s : List Packet) (k2 : Packet) : Int :=
  globalBonus k1s k2.ts + (k2Prox k1s k2).1

/-- Status transition of the binding pass: `-1 → 0`, `1 → 2`, else kept. -/
def k2NewSent (sent : Int) : Int :=
  if sent = -1 then 0 else if sent = 1 then 2 else sent

/-- Full per-target computation of `analyze_k2_packets`:
final faithfulness, callsign and status. -/
def k2Compute (k1s : List Packet) (k2 : Packet) : Int × Option String × Int :=
  (min (k2RawScore k1s k2) 100, (k2Prox k1s k2).2, k2NewSent k2.sent)

/-- One row of the executemany `UPDATE` batch of `analyze_k2_packets`. -/
structure K2Update where
  uuid : Nat
  faith : Int
  cs : Option String
  snt : Int
deriving DecidableEq

/-- The update row `analyze_k2_packets` emits for one target, if any: a
target is written only when its recomputed faithfulness, callsign or status
differs from the stored row (`current_faithfulness` coalesces a falsy stored
value to 0). -/
def k2UpdateFor (now : ℚ) (db : List Packet) (p : Packet) : Option K2Update :=
  if (k2Compute (k1Context now db) p).1 ≠ (if p.faithfulness = 0 then 0 else p.faithfulness)
      ∨ (k2Compute (k1Context now db) p).2.1 ≠ p.callsign
      ∨ (k2Compute (k1Context now db) p).2.2 ≠ p.sent then
    some ⟨p.uuid, (k2Compute (k1Context now db) p).1, (k2Compute (k1Context now db) p).2.1,
      (k2Compute (k1Context now db) p).2.2⟩
  else none

/-- The executemany `UPDATE` batch of one K2 pass. -/
def k2Updates (now : ℚ) (db : List Packet) : List K2Update :=
  (k2Targets now db).filterMap (k2UpdateFor now db)

/-- The column assignment of the K2 `UPDATE` statement. -/
def applySet (u : K2Update) (p : Packet) : Packet :=
  { p with faithfulness := u.faith, callsign := u.cs, sent := u.snt }

/-- One `UPDATE packets SET ... WHERE uuid = ?` statement. -/
def applyK2Update (db : List Packet) (u : K2Update) : List Packet :=
  db.map (fun p => if p.uuid = u.uuid then applySet u p else p)

/-- The cumulative effect of the executemany batch on a single row. -/
def applyChain (ups : List K2Update) (p : Packet) : Packet :=
  ups.foldl (fun q u => if q.uuid = u.uuid then applySet u q else q) p

/-- `analyze_k2_packets`: the updated table and the number of updated rows. -/
def analyze_k2 (now : ℚ) (db : List Packet) : List Packet × Nat :=
  ((k2Updates now db).foldl applyK2Update db, (k2Updates now db).length)

/-- One cycle of `analyser_loop`: the K1 frequency pass followed by the K2
binding pass. -/
def engineRun (now : ℚ) (db : List Packet) : List Packet :=
  (analyze_k2 now (analyze_k1 now db).1).1

/-- Total number of rows written by one engine cycle. -/
def engineWriteCount (now : ℚ) (db : List Packet) : Nat :=
  (analyze_k1 now db).2 + (analyze_k2 now (analyze_k1 now db).1).2

/-- A delivered (Synced) identity row with label `"X"`, creation time 0 and
stored faithfulness `f`, used to exercise the frequency-aging pass. -/
def exRowC2 (i : Nat) (f : Int) : Packet :=
  { uuid := i, ptype := 1, callsign := some "X", ts := 0, faithfulness := f, sent := 1,
    createdAt := 0 }

/-- Six Synced identity beacons of the same label inside the 30 s window:
five below the recomputed confidence and one already at it. -/
def exDbC2 : List Packet :=
  [exRowC2 1 30, exRowC2 2 30, exRowC2 3 30, exRowC2 4 30, exRowC2 5 30, exRowC2 6 75]

/-- A delivered identity beacon (`"X"`, event time 100) inside the context
window at `now = 200`. -/
def exK1W : Packet :=
  { uuid := 1, ptype := 1, callsign := some "X", ts := 100, faithfulness := 50, sent := 1,
    createdAt := 150 }

/-- An unlabelled delivered measurement 0.5 s after `exK1W`, inside the
binding settling window at `now = 200`. -/
def exK2W : Packet :=
  { uuid := 2, ptype := 2, callsign := none, ts := 100.5, faithfulness := 0, sent := 1,
    createdAt := 150 }

/-- A store holding one identity beacon and one measurement to bind. -/
def exDbW : List Packet := [exK1W, exK2W]

/-- Identity beacon `"X"` at event time 100 (for the window-correctness
scenario). -/
def exK1C5 : Packet :=
  { uuid := 1, ptype := 1, callsign := some "X", ts := 100, faithfulness := 50, sent := 1,
    createdAt := 150 }

/-- A measurement at 100.5 s that already carries the conflicting label
`"Y"`, selected for binding at `now = 200`. -/
def exK2C5 : Packet :=
  { uuid := 2, ptype := 2, callsign := some "Y", ts := 100.5, faithfulness := 20, sent := 1,
    createdAt := 150 }

/-- Store for the window-correctness counterexample. -/
def exDbC5 : List Packet := [exK1C5, exK2C5]

/-- A measurement that already carries label `"A"`, selected for binding. -/
def exP6 : Packet :=
  { uuid := 3, ptype := 2, callsign := some "A", ts := 100, faithfulness := 0, sent := 1,
    createdAt := 150 }

/-- Identity beacon `"A"` 1.5 s away from `exP6`. -/
def exQ6A : Packet :=
  { uuid := 4, ptype := 1, callsign := some "A", ts := 101.5, faithfulness := 50, sent := 1,
    createdAt := 150 }

/-- Identity beacon `"B"` 0.5 s away from `exP6`. -/
def exQ6B : Packet :=
  { uuid := 5, ptype := 1, callsign := some "B", ts := 100.5, faithfulness := 50, sent := 1,
    createdAt := 150 }

/-- Store for the collision-handling counterexample: two identity events with
distinct labels, both within ±2 s of the measurement's time. -/
def exDbC6 : List Packet := [exQ6A, exQ6B, exP6]

/-- Outcome of the HTTP POST in `send_packets_to_api`: a response carrying a
status code, or one of the caught exception classes (`ConnectionError`,
`Timeout`, any other exception). -/
inductive SendOutcome where
  | httpResp (status : Nat)
  | connError
  | timeoutErr
  | otherExc
deriving DecidableEq

/-- Whether `send_packets_to_api` takes its success branch: the code tests
`response.status_code == 200` and returns `False` on every other status and
on every caught exception. -/
def sendResult : SendOutcome → Bool
  | .httpResp s => s == 200
  | _ => false

/-- `mark_packets_as_synced`:
`UPDATE packets SET sent = 1 WHERE uuid IN (...)`. -/
def mark_packets_as_synced (uuids : List Nat) (db : List Packet) : List Packet :=
  db.map (fun p => if p.uuid ∈ uuids then { p with sent := 1 } else p)

/-- `send_packets_to_api`: an empty batch returns success without I/O; on
HTTP 200 the whole transmitted batch is marked synced and the call returns
success; on any other outcome the store is left untouched and the call
returns failure. -/
def send_packets_to_api (outcome : SendOutcome) (packets : List Packet)
    (db : List Packet) : List Packet × Bool :=
  if packets = [] then (db, true)
  else if sendResult outcome then
    (mark_packets_as_synced (packets.map Packet.uuid) db, true)
  else (db, false)

/-- `get_pending_packets`: row selection `sent IN (0, 2)`. -/
def pendingPred (p : Packet) : Bool :=
  (p.sent == 0) || (p.sent == 2)

/-- `get_pending_packets`:
`WHERE sent IN (0, 2) ORDER BY created_at ASC LIMIT ?`. -/
def get_pending_packets (db : List Packet) (limit : Nat) : List Packet :=
  ((List.insertionSort (fun a b : Packet => a.createdAt ≤ b.createdAt) db).filter
    pendingPred).take limit

/-- One iteration of `sender_loop`: fetch the pending batch; when it is
empty, sleep without transmitting; otherwise transmit it (marking it synced
exactly on success). -/
def deliveryCycle (outcome : SendOutcome) (batch : Nat) (db : List Packet) : List Packet :=
  if get_pending_packets db batch = [] then db
  else (send_packets_to_api outcome (get_pending_packets db batch) db).1

/-- The dict produced by `parse_k1_packet` / `parse_k2_packet`: the value
row bound for the INSERT into `packets`. -/
structure ParsedPacket where
  event_time : String
  ptype : Int
  callsign : Option String
  height : Option Int
  fuel : Option Int
  alarm : Int
  faithfulness : Int
  sent : Int
deriving DecidableEq

/-- Python `\s` (and `str.strip` whitespace) on the ASCII range. -/
def pySpace (c : Char) : Bool :=
  (c == ' ') || (c == '\t') || (c == '\n') || (c == '\r') || (c == '\x0b') || (c == '\x0c')

/-- `(\d{2})`: exactly two digit characters (the next pattern character is
matched separately, so a third digit makes the surrounding pattern fail). -/
def digits2 : List Char → Option (List Char × List Char)
  | a :: b :: r => if a.isDigit && b.isDigit then some ([a, b], r) else none
  | _ => none

/-- Greedy `(\d+)`: the maximal nonempty digit run. -/
def digits1 (s : List Char) : Option (List Char × List Char) :=
  if (s.takeWhile Char.isDigit).isEmpty then none
  else some (s.takeWhile Char.isDigit, s.dropWhile Char.isDigit)

/-- One literal character. -/
def expectChar (c : Char) : List Char → Option (List Char)
  | x :: r => if x = c then some r else none
  | [] => none

/-- Greedy `\s+`: at least one whitespace character, maximal munch (the
following pattern parts never match whitespace, so no backtracking point is
lost). -/
def spaces1 : List Char → Option (List Char)
  | c :: r => if pySpace c then some (r.dropWhile pySpace) else none
  | [] => none

/-- The shared timestamp prefix `(\d{2}):(\d{2}):(\d{2})\.(\d+)\.(\d+)\s+`
of `K1_PATTERN` and `K2_PATTERN`: hours, minutes, seconds and the rest of
the line. -/
def timePrefix (s : List Char) : Option (List Char × List Char × List Char × List Char) := do
  let (hh, r1) ← digits2 s
  let r2 ← expectChar ':' r1
  let (mm, r3) ← digits2 r2
  let r4 ← expectChar ':' r3
  let (ss, r5) ← digits2 r4
  let r6 ← expectChar '.' r5
  let (_ms, r7) ← digits1 r6
  let r8 ← expectChar '.' r7
  let (_us, r9) ← digits1 r8
  let r10 ← spaces1 r9
  pure (hh, mm, ss, r10)

/-- The lazy tail `.*?:(\d+)$` of `K1_PATTERN` on a newline-free line: the
first colon followed by a nonempty all-digit suffix.  At most one such colon
exists (a colon is not a digit), so this is the line's trailing digit run. -/
def tailLabel : List Char → Option (List Char)
  | [] => none
  | c :: r =>
    if c = ':' then
      if !r.isEmpty && r.all Char.isDigit then some r else tailLabel r
    else tailLabel r

/-- `K1_PATTERN.search` on one (newline-free) line: the match is anchored by
`^`, so it is attempted only at position 0. -/
def k1Match : List Char → Option (List Char × List Char × List Char × List Char)
  | 'K' :: '1' :: r0 => do
    let r1 ← spaces1 r0
    let (hh, mm, ss, r2) ← timePrefix r1
    let label ← tailLabel r2
    pure (hh, mm, ss, label)
  | _ => none

/-- `FL\s*(\d+)m` at the current position (deterministic: whitespace,
digits and the literal `m` are pairwise disjoint). -/
def flBlock : List Char → Option (List Char × List Char)
  | 'F' :: 'L' :: r => do
    let (alt, r2) ← digits1 (r.dropWhile pySpace)
    let r3 ← expectChar 'm' r2
    pure (alt, r3)
  | _ => none

/-- The lazy scan `.*?F:(\d+)%`: the first `F:` followed by a digit run and
a percent sign; on a failed attempt the scan advances one character. -/
def fuelScan : List Char → Option (List Char)
  | [] => none
  | c :: r =>
    if c = 'F' then
      match r with
      | ':' :: r2 =>
        match digits1 r2 with
        | some (fuel, '%' :: _) => some fuel
        | _ => fuelScan r
      | _ => fuelScan r
    else fuelScan r

/-- The lazy scan `.*?FL\s*(\d+)m` followed by `.*?F:(\d+)%`: the first
altitude block from which a later fuel block can still be found; otherwise
the scan advances one character (regex backtracking order). -/
def flScan : List Char → Option (List Char × List Char)
  | [] => none
  | c :: r =>
    match flBlock (c :: r) with
    | some (alt, rest) =>
      match fuelScan rest with
      | some fuel => some (alt, fuel)
      | none => flScan r
    | none => flScan r

/-- `K2_PATTERN.search` on one (newline-free) line. -/
def k2Match : List Char → Option (List Char × List Char × List Char × List Char × List Char)
  | 'K' :: '2' :: r0 => do
    let r1 ← spaces1 r0
    let (hh, mm, ss, r2) ← timePrefix r1
    let (alt, fuel) ← flScan r2
    pure (hh, mm, ss, alt, fuel)
  | _ => none

/-- Python `int()` on a digit run. -/
def digitsToNat (l : List Char) : Nat :=
  l.foldl (fun n c => 10 * n + (c.toNat - Char.toNat '0')) 0

/-- The f-string `f"{get_local_date(time_offset)} {hours}:{minutes}:{seconds}"`;
the parser's wall-clock date is abstracted as `dateStr`. -/
def mkEventTime (dateStr : String) (hh mm ss : List Char) : String :=
  dateStr ++ " " ++ hh.asString ++ ":" ++ mm.asString ++ ":" ++ ss.asString

/-- `parse_k1_packet` (DB logging elided): on a match, an Identity row whose
callsign is the trailing digit run, faithfulness 50, `sent = 1`. -/
def parse_k1_packet (line : List Char) (dateStr : String) : Option ParsedPacket :=
  match k1Match line with
  | none => none
  | some (hh, mm, ss, label) => some
    { event_time := mkEventTime dateStr hh mm ss, ptype := 1,
      callsign := some label.asString, height := none, fuel := none, alarm := 0,
      faithfulness := 50, sent := 1 }

/-- `parse_k2_packet` (DB logging elided): on a match, a Measurement row with
the `FL` value as height and the `F` value as fuel, faithfulness 0,
`sent = 0`. -/
def parse_k2_packet (line : List Char) (dateStr : String) : Option ParsedPacket :=
  match k2Match line with
  | none => none
  | some (hh, mm, ss, alt, fuel) => some
    { event_time := mkEventTime dateStr hh mm ss, ptype := 2, callsign := none,
      height := some (digitsToNat alt : Int), fuel := some (digitsToNat fuel : Int),
      alarm := 0, faithfulness := 0, sent := 0 }

/-- Python `str.strip`. -/
def pyStrip (l : List Char) : List Char :=
  ((l.dropWhile pySpace).reverse.dropWhile pySpace).reverse

/-- `parse_line`: strip; an empty or whitespace-only line yields nothing; a
`"K1 "` prefix dispatches to the K1 parser, `"K2 "` to the K2 parser; any
other line is ignored. -/
def parse_line (line : List Char) (dateStr : String) : Option ParsedPacket :=
  if pyStrip line = [] then none
  else if (pyStrip line).take 3 = ['K', '1', ' '] then parse_k1_packet (pyStrip line) dateStr
  else if (pyStrip line).take 3 = ['K', '2', ' '] then parse_k2_packet (pyStrip line) dateStr
  else none

/-- The INSERT executed by `flush_packets` / `save_packet_to_db`, with the
store-assigned columns supplied by the store; `ts` abstracts
`parse_event_time(event_time)`. -/
def insertRow (pk : ParsedPacket) (uuid : Nat) (ts createdAt : ℚ) : Packet :=
  { uuid := uuid, ptype := pk.ptype, callsign := pk.callsign, ts := ts,
    faithfulness := pk.faithfulness, sent := pk.sent, createdAt := createdAt }

/-- Outcome of one SQLite batch insert. -/
inductive StoreOutcome where
  | ok
  | failure
deriving DecidableEq

/-- `flush_packets`: an empty buffer returns `total` unchanged; a successful
executemany appends the buffer to the store and counts it; an exception
leaves both unchanged (the function's own comment: the buffer is NOT cleared
on an error and must be retried on the next attempt). -/
def flush_packets (st : StoreOutcome) (store : List ParsedPacket)
    (buf : List ParsedPacket) (total : Nat) : List ParsedPacket × Nat :=
  if buf = [] then (store, total)
  else
    match st with
    | .ok => (store ++ buf, total + buf.length)
    | .failure => (store, total)

/-- The timed-flush step of `parser_loop` (parser.py lines 372–382): call
`flush_packets`, then set `packets_buffer = []` unconditionally.  Returns
the store, the new buffer and the running total. -/
def loopFlushStep (st : StoreOutcome) (store buf : List ParsedPacket) (total : Nat) :
    List ParsedPacket × List ParsedPacket × Nat :=
  ((flush_packets st store buf total).1, [], (flush_packets st store buf total).2)

/-- The sample Identity line from the `parse_k1_packet` docstring. -/
def sampleK1Line : String := "K1 11:11:38.370.366 [ 8832] {018} **** :10437"

/-- The sample Measurement line from the `parse_k2_packet` docstring. -/
def sampleK2Line : String := "K2 11:12:54.082.632 [ 8706] {017} **** FL 5360m [F176]+  F:40%"

/-- `sampleK2Line` without its fuel tag. -/
def badK2NoFuel : String := "K2 11:12:54.082.632 [ 8706] {017} **** FL 5360m [F176]+"

/-- `sampleK2Line` with a non-numeric altitude. -/
def badK2Alt : String := "K2 11:12:54.082.632 [ 8706] {017} **** FL xm F:40%"

/-- The row `parse_k1_packet` produces for `sampleK1Line` on 2024-01-01. -/
def sampleK1Packet : ParsedPacket :=
  { event_time := "2024-01-01 11:11:38", ptype := 1, callsign := some "10437",
    height := none, fuel := none, alarm := 0, faithfulness := 50, sent := 1 }

/-- The row `parse_k2_packet` produces for `sampleK2Line` on 2024-01-01. -/
def sampleK2Packet : ParsedPacket :=
  { event_time := "2024-01-01 11:12:54", ptype := 2, callsign := none,
    height := some 5360, fuel := some 40, alarm := 0, faithfulness := 0, sent := 0 }

/-- Whether a (possibly empty) list does not start with a whitespace
character — the shape constraint that makes a maximal-munch `\s+` boundary
unambiguous. -/
def headNotSpace : List Char → Bool
  | [] => true
  | c :: _ => !pySpace c

/-- Whether a list does not end with a whitespace character (so `str.strip`
leaves it unchanged on the right). -/
def lastNotSpace (l : List Char) : Bool :=
  match l.getLast? with
  | none => true
  | some c => !pySpace c

/-- A freshly inserted measurement row: `sent = 0`, pending transmission. -/
def exPend : Packet :=
  { uuid := 7, ptype := 2, callsign := none, ts := 0, faithfulness := 0, sent := 0,
    createdAt := 0 }

/-- C10 (invariant): the raw recomputed score is one of `{0, 20, 40, 50, 70}`,
so the `min(·, 100)` clamp never changes it. -/
theorem C10_confidence_range (k1s : List Packet) (p : Packet) :
    (k2RawScore k1s p = 0 ∨ k2RawScore k1s p = 20 ∨ k2RawScore k1s p = 40 ∨
      k2RawScore k1s p = 50 ∨ k2RawScore k1s p = 70) ∧
    (k2Compute k1s p).1 = k2RawScore k1s p := by
  have hg : globalBonus k1s p.ts = 0 ∨ globalBonus k1s p.ts = 20 := by
    unfold globalBonus
    split <;> simp
  have hp : (k2Prox k1s p).1 = 0 ∨ (k2Prox k1s p).1 = 20 ∨ (k2Prox k1s p).1 = 50 := by
    unfold k2Prox
    rcases h : (List.foldl
        (fun acc k1 => if |k1.ts - p.ts| < acc.1 then (|k1.ts - p.ts|, some k1) else acc)
        ((100 : ℚ), (none : Option Packet))
        (k1s.filter (fun k1 =>
          (!(strTruthy p.callsign) || (k1.callsign == p.callsign)) &&
          decide (|k1.ts - p.ts| ≤ 2)))).2 with
      _ | c
    · simp [h]
    · simp only [h]
      split <;> [skip; simp]
      split <;> [simp; skip]
      split <;> simp
  have hsum : k2RawScore k1s p = globalBonus k1s p.ts + (k2Prox k1s p).1 := rfl
  constructor
  · rcases hg with hg | hg <;> rcases hp with hp | hp | hp <;>
      rw [hsum, hg, hp] <;> norm_num
  · have : k2RawScore k1s p ≤ 100 := by
      rcases hg with hg | hg <;> rcases hp with hp | hp | hp <;>
        rw [hsum, hg, hp] <;> norm_num
    simpa [k2Compute] using min_eq_left this

theorem applyChain_cons (u : K2Update) (us : List K2Update) (p : Packet) :
    applyChain (u :: us) p = applyChain us (if p.uuid = u.uuid then applySet u p else p) := rfl

theorem applyChain_fields (ups : List K2Update) (p : Packet) :
    (applyChain ups p).uuid = p.uuid ∧ (applyChain ups p).ptype = p.ptype ∧
      (applyChain ups p).createdAt = p.createdAt := by
  induction ups generalizing p with
  | nil => exact ⟨rfl, rfl, rfl⟩
  | cons u us ih =>
    rw [applyChain_cons]
    by_cases h : p.uuid = u.uuid
    · rw [if_pos h]
      exact (ih (applySet u p))
    · rw [if_neg h]
      exact ih p

theorem applyChain_sent_keep (ups : List K2Update) (p : Packet)
    (hs : ∀ u ∈ ups, u.snt = 0 ∨ u.snt = 2) (hp : p.sent = 0 ∨ p.sent = 2) :
    (applyChain ups p).sent = 0 ∨ (applyChain ups p).sent = 2 := by
  induction ups generalizing p with
  | nil => exact hp
  | cons u us ih =>
    rw [applyChain_cons]
    by_cases h : p.uuid = u.uuid
    · rw [if_pos h]
      exact ih (applySet u p) (fun v hv => hs v (List.mem_cons_of_mem u hv))
        (hs u (List.mem_cons_self u us))
    · rw [if_neg h]
      exact ih p (fun v hv => hs v (List.mem_cons_of_mem u hv)) hp

theorem applyChain_sent_hit (ups : List K2Update) (p : Packet)
    (hs : ∀ u ∈ ups, u.snt = 0 ∨ u.snt = 2) (hx : ∃ u ∈ ups, u.uuid = p.uuid) :
    (applyChain ups p).sent = 0 ∨ (applyChain ups p).sent = 2 := by
  induction ups generalizing p with
  | nil => simp at hx
  | cons u us ih =>
    rw [applyChain_cons]
    by_cases h : p.uuid = u.uuid
    · rw [if_pos h]
      exact applyChain_sent_keep us (applySet u p)
        (fun v hv => hs v (List.mem_cons_of_mem u hv)) (hs u (List.mem_cons_self u us))
    · rw [if_neg h]
      rcases hx with ⟨v, hv, hvu⟩
      rcases List.mem_cons.1 hv with rfl | hv'
      · exact absurd hvu.symm h
      · exact ih p (fun w hw => hs w (List.mem_cons_of_mem u hw)) ⟨v, hv', hvu⟩

theorem applyChain_sent_cases (ups : List K2Update) (p : Packet)
    (hs : ∀ u ∈ ups, u.snt = 0 ∨ u.snt = 2) :
    applyChain ups p = p ∨ (applyChain ups p).sent = 0 ∨ (applyChain ups p).sent = 2 := by
  induction ups generalizing p with
  | nil => exact Or.inl rfl
  | cons u us ih =>
    rw [applyChain_cons]
    by_cases h : p.uuid = u.uuid
    · rw [if_pos h]
      exact Or.inr (applyChain_sent_keep us (applySet u p)
        (fun v hv => hs v (List.mem_cons_of_mem u hv)) (hs u (List.mem_cons_self u us)))
    · rw [if_neg h]
      exact ih p (fun v hv => hs v (List.mem_cons_of_mem u hv))

theorem foldl_applyK2 (ups : List K2Update) (db : List Packet) :
    ups.foldl applyK2Update db = db.map (applyChain ups) := by
  induction ups generalizing db with
  | nil =>
    rw [List.foldl_nil, show applyChain [] = @id Packet from funext fun p => rfl,
      List.map_id]
  | cons u us ih =>
    rw [List.foldl_cons, ih, applyK2Update, List.map_map]
    exact congrArg db.map (funext fun p => rfl)

theorem k2UpdateFor_eq (now : ℚ) (db : List Packet) (p : Packet) (u : K2Update)
    (h : k2UpdateFor now db p = some u) :
    u = ⟨p.uuid, (k2Compute (k1Context now db) p).1, (k2Compute (k1Context now db) p).2.1,
      (k2Compute (k1Context now db) p).2.2⟩ := by
  by_cases hc : (k2Compute (k1Context now db) p).1 ≠
        (if p.faithfulness = 0 then 0 else p.faithfulness) ∨
      (k2Compute (k1Context now db) p).2.1 ≠ p.callsign ∨
      (k2Compute (k1Context now db) p).2.2 ≠ p.sent
  · rw [k2UpdateFor, if_pos hc] at h
    exact (Option.some.inj h).symm
  · rw [k2UpdateFor, if_neg hc] at h
    exact absurd h (by simp)

theorem k2Updates_snt (now : ℚ) (db : List Packet) :
    ∀ u ∈ k2Updates now db, u.snt = 0 ∨ u.snt = 2 := by
  intro u hu
  simp only [k2Updates] at hu
  rcases List.mem_filterMap.1 hu with ⟨p, hp, he⟩
  simp only [k2Targets] at hp
  have hsent : p.sent = -1 ∨ p.sent = 1 := by
    have h2 := (List.mem_filter.1 hp).2
    simp only [k2TargetPred, Bool.and_eq_true, Bool.or_eq_true, beq_iff_eq] at h2
    exact h2.1.1.2
  rw [k2UpdateFor_eq now db p u he]
  show k2NewSent p.sent = 0 ∨ k2NewSent p.sent = 2
  rcases hsent with h | h <;> simp [k2NewSent, h]

theorem k2UpdateFor_target (now : ℚ) (db : List Packet) (p : Packet)
    (h : k2TargetPred now p = true) :
    ∃ u, k2UpdateFor now db p = some u ∧ u.uuid = p.uuid := by
  have hsent : p.sent = -1 ∨ p.sent = 1 := by
    simp only [k2TargetPred, Bool.and_eq_true, Bool.or_eq_true, beq_iff_eq] at h
    exact h.1.1.2
  have hne : (k2Compute (k1Context now db) p).2.2 ≠ p.sent := by
    have hcc : (k2Compute (k1Context now db) p).2.2 = k2NewSent p.sent := rfl
    rw [hcc]
    rcases hsent with h | h <;> simp [k2NewSent, h]
  refine ⟨⟨p.uuid, (k2Compute (k1Context now db) p).1, (k2Compute (k1Context now db) p).2.1,
      (k2Compute (k1Context now db) p).2.2⟩, ?_, rfl⟩
  rw [k2UpdateFor, if_pos (Or.inr (Or.inr hne))]

theorem k2Targets_after_run (now : ℚ) (db : List Packet) :
    k2Targets now ((k2Updates now db).foldl applyK2Update db) = [] := by
  rw [foldl_applyK2, k2Targets, List.filter_eq_nil_iff]
  intro q hq
  rcases List.mem_map.1 hq with ⟨p, hp, rfl⟩
  have hF := applyChain_fields (k2Updates now db) p
  by_cases h2 : p.ptype = 2 ∧ now - 100 ≤ p.createdAt ∧ p.createdAt ≤ now - 20
  · by_cases hs : p.sent = -1 ∨ p.sent = 1
    · have ht : k2TargetPred now p = true := by
        simp only [k2TargetPred, Bool.and_eq_true, Bool.or_eq_true, beq_iff_eq,
          decide_eq_true_eq]
        exact ⟨⟨⟨h2.1, hs⟩, h2.2.1⟩, h2.2.2⟩
      rcases k2UpdateFor_target now db p ht with ⟨u, hu, huid⟩
      have hmem : u ∈ k2Updates now db :=
        List.mem_filterMap.2 ⟨p, List.mem_filter.2 ⟨hp, ht⟩, hu⟩
      have hsent := applyChain_sent_hit (k2Updates now db) p (k2Updates_snt now db)
        ⟨u, hmem, huid⟩
      simp only [k2TargetPred, Bool.and_eq_true, Bool.or_eq_true, beq_iff_eq]
      rcases hsent with h0 | h0 <;> rw [h0] <;> simp
    · rcases applyChain_sent_cases (k2Updates now db) p (k2Updates_snt now db) with
        h0 | h0 | h0
      · rw [h0]
        simp only [k2TargetPred, Bool.and_eq_true, Bool.or_eq_true, beq_iff_eq]
        tauto
      · simp only [k2TargetPred, Bool.and_eq_true, Bool.or_eq_true, beq_iff_eq]
        rw [h0]
        simp
      · simp only [k2TargetPred, Bool.and_eq_true, Bool.or_eq_true, beq_iff_eq]
        rw [h0]
        simp
  · simp only [k2TargetPred, Bool.and_eq_true, Bool.or_eq_true, beq_iff_eq,
      decide_eq_true_eq, hF.2.1, hF.2.2]
    tauto

theorem k2UpdateFor_some (now : ℚ) (db : List Packet) (p : Packet) (u : K2Update)
    (h : k2UpdateFor now db p = some u) :
    (k2Compute (k1Context now db) p).1 ≠
        (if p.faithfulness = 0 then 0 else p.faithfulness) ∨
      (k2Compute (k1Context now db) p).2.1 ≠ p.callsign ∨
      (k2Compute (k1Context now db) p).2.2 ≠ p.sent := by
  by_cases hc : (k2Compute (k1Context now db) p).1 ≠
        (if p.faithfulness = 0 then 0 else p.faithfulness) ∨
      (k2Compute (k1Context now db) p).2.1 ≠ p.callsign ∨
      (k2Compute (k1Context now db) p).2.2 ≠ p.sent
  · exact hc
  · rw [k2UpdateFor, if_neg hc] at h
    exact absurd h (by simp)

/-- C2 (counterexample): on six Synced same-label identity rows inside the
30 s window — five stored at confidence 30, one at 75 — the first engine run
writes five rows, and the second run over the resulting store writes one more
row, so the second run is not write-free: the K1 pass's own
Synced→PendingUpdate transitions change the Synced population it counts. -/
theorem C2_counterexample :
    engineWriteCount 0 exDbC2 = 5 ∧ engineWriteCount 0 (engineRun 0 exDbC2) = 1 := by
  decide

/-- C2 (amended): the binding (K2) pass is idempotent — run twice in
succession on a store receiving no other writes, its second run issues no
update — and each pass writes only rows whose stored confidence, label or
status differs from the recomputed value.  The K1 frequency-aging pass,
however, is not write-free on a second run (see the counterexample). -/
theorem C2_idempotent_recomputation (now : ℚ) (db : List Packet) :
    k2Updates now (analyze_k2 now db).1 = [] ∧
    (∀ u ∈ k2Updates now db, ∃ p ∈ db, u.uuid = p.uuid ∧
      (u.faith ≠ (if p.faithfulness = 0 then 0 else p.faithfulness) ∨
        u.cs ≠ p.callsign ∨ u.snt ≠ p.sent)) ∧
    (∀ p : Packet, k1Written now db p = true →
      p.sent = 1 ∧ (k1Apply now db p).faithfulness ≠ p.faithfulness ∧
        (k1Apply now db p).sent = 2) := by
  refine ⟨?_, ?_, ?_⟩
  · show (k2Targets now ((k2Updates now db).foldl applyK2Update db)).filterMap
      (k2UpdateFor now ((k2Updates now db).foldl applyK2Update db)) = []
    rw [k2Targets_after_run]
    rfl
  · intro u hu
    simp only [k2Updates] at hu
    rcases List.mem_filterMap.1 hu with ⟨p, hp, he⟩
    simp only [k2Targets] at hp
    have hcond := k2UpdateFor_some now db p u he
    have hueq := k2UpdateFor_eq now db p u he
    subst hueq
    exact ⟨p, List.mem_of_mem_filter hp, rfl, hcond⟩
  · intro p hw
    rcases hnf : k1NewFor now db p with _ | nf
    · rw [k1Written, hnf] at hw
      exact absurd hw (by simp)
    · rw [k1Written, hnf] at hw
      have hne : p.faithfulness ≠ nf := by simpa using hw
      have hel : k1Eligible now p = true := by
        by_cases hb : (k1Eligible now p && !(p.callsign == none)) = true
        · have hb2 : k1Eligible now p = true ∧ (!(p.callsign == none)) = true := by
            simpa using hb
          exact hb2.1
        · rw [k1NewFor, if_neg hb] at hnf
          exact absurd hnf (by simp)
      have hsent1 : p.sent = 1 := by
        simp only [k1Eligible, Bool.and_eq_true, beq_iff_eq] at hel
        exact hel.1.2
      have happ : k1Apply now db p = { p with faithfulness := nf, sent := 2 } := by
        simp only [k1Apply, hnf]
        rw [if_neg (by simpa using hne)]
      refine ⟨hsent1, ?_, ?_⟩
      · rw [happ]
        exact fun hcc => hne hcc.symm
      · rw [happ]

/-- Witness: the amended C2 at the concrete stores `exDbW` and `exDbC2`. -/
theorem C2_idempotent_recomputation_witness :
    k2Updates 200 (analyze_k2 200 exDbW).1 = [] ∧
    (∃ p ∈ exDbW, (2 : Nat) = p.uuid ∧
      ((70 : Int) ≠ (if p.faithfulness = 0 then 0 else p.faithfulness) ∨
        (some "X" : Option String) ≠ p.callsign ∨ (2 : Int) ≠ p.sent)) ∧
    ((exRowC2 1 30).sent = 1 ∧
      (k1Apply 0 exDbC2 (exRowC2 1 30)).faithfulness ≠ (exRowC2 1 30).faithfulness ∧
      (k1Apply 0 exDbC2 (exRowC2 1 30)).sent = 2) := by
  refine ⟨(C2_idempotent_recomputation 200 exDbW).1, ?_,
    (C2_idempotent_recomputation 0 exDbC2).2.2 (exRowC2 1 30) (by decide)⟩
  exact (C2_idempotent_recomputation 200 exDbW).2.1 ⟨2, 70, some "X", 2⟩ (by decide)

theorem dedup_length_one {α : Type} [DecidableEq α] {l : List α} {a : α}
    (ha : a ∈ l) (hall : ∀ y ∈ l, y = a) : l.dedup.length = 1 := by
  have h1 : l.dedup.Nodup := List.nodup_dedup l
  have ha' : a ∈ l.dedup := List.mem_dedup.2 ha
  have hall' : ∀ y ∈ l.dedup, y = a := fun y hy => hall y (List.mem_dedup.1 hy)
  rcases hd : l.dedup with _ | ⟨c, cs⟩
  · rw [hd] at ha'
    simp at ha'
  · rw [hd] at hall' h1
    have hca : c = a := hall' c (by simp)
    rcases cs with _ | ⟨d, ds⟩
    · rfl
    · have hda : d = a := hall' d (by simp)
      have hnm : c ∉ d :: ds := (List.nodup_cons.1 h1).1
      exact absurd (by rw [hca, ← hda]; exact List.mem_cons_self d ds) hnm

theorem dedup_length_ne_one {α : Type} [DecidableEq α] {l : List α} {a b : α}
    (ha : a ∈ l) (hb : b ∈ l) (hab : a ≠ b) : l.dedup.length ≠ 1 := by
  intro h
  rcases List.length_eq_one.1 h with ⟨c, hc⟩
  have ha' : a ∈ l.dedup := List.mem_dedup.2 ha
  have hb' : b ∈ l.dedup := List.mem_dedup.2 hb
  rw [hc] at ha' hb'
  simp only [List.mem_singleton] at ha' hb'
  exact hab (ha'.trans hb'.symm)

theorem globalBonus_cases (k1s : List Packet) (t : ℚ) :
    globalBonus k1s t = 0 ∨ globalBonus k1s t = 20 := by
  unfold globalBonus
  split <;> simp

theorem globalBonus_single (k1s : List Packet) (t : ℚ) (q : Packet) (x : String)
    (hq : q ∈ k1s) (hqcs : q.callsign = some x) (hd : |q.ts - t| ≤ 20)
    (honly : ∀ r ∈ k1s, |r.ts - t| ≤ 20 → r = q) :
    globalBonus k1s t = 20 := by
  have hm : q ∈ k1s.filter (fun k1 => decide (|k1.ts - t| ≤ 20)) :=
    List.mem_filter.2 ⟨hq, by simpa using hd⟩
  have hdl : ((k1s.filter (fun k1 => decide (|k1.ts - t| ≤ 20))).map
      Packet.callsign).dedup.length = 1 := by
    refine dedup_length_one (a := some x) ?_ ?_
    · exact hqcs ▸ List.mem_map_of_mem Packet.callsign hm
    · intro y hy
      rcases List.mem_map.1 hy with ⟨r, hr, rfl⟩
      have hr2 := List.mem_filter.1 hr
      rw [honly r hr2.1 (by simpa using hr2.2)]
      exact hqcs
  rw [globalBonus, if_pos hdl]

theorem scanFold_stay (t : ℚ) (l : List Packet) (q : Packet) (hall : ∀ r ∈ l, r = q) :
    l.foldl (fun acc k1 => if |k1.ts - t| < acc.1 then (|k1.ts - t|, some k1) else acc)
      (|q.ts - t|, some q) = (|q.ts - t|, some q) := by
  induction l with
  | nil => rfl
  | cons r l' ih =>
    have hr : r = q := hall r (List.mem_cons_self r l')
    subst hr
    rw [List.foldl_cons, if_neg (lt_irrefl _)]
    exact ih (fun s hs => hall s (List.mem_cons_of_mem r hs))

theorem scanFold_const (t : ℚ) (l : List Packet) (q : Packet) (hne : l ≠ [])
    (hall : ∀ r ∈ l, r = q) (hlt : |q.ts - t| < 100) :
    l.foldl (fun acc k1 => if |k1.ts - t| < acc.1 then (|k1.ts - t|, some k1) else acc)
      ((100 : ℚ), (none : Option Packet)) = (|q.ts - t|, some q) := by
  rcases l with _ | ⟨r, l'⟩
  · exact absurd rfl hne
  · have hr : r = q := hall r (List.mem_cons_self r l')
    subst hr
    rw [List.foldl_cons, if_pos hlt]
    exact scanFold_stay t l' r (fun s hs => hall s (List.mem_cons_of_mem r hs))

theorem k2Prox_single (k1s : List Packet) (p q : Packet) (hmem : q ∈ k1s)
    (hpass : (!(strTruthy p.callsign) || (q.callsign == p.callsign)) = true)
    (hd2 : |q.ts - p.ts| ≤ 2)
    (hall : ∀ r ∈ k1s, |r.ts - p.ts| ≤ 2 → r = q) :
    k2Prox k1s p = (if |q.ts - p.ts| ≤ 1 then ((50 : Int), q.callsign)
      else ((20 : Int), q.callsign)) := by
  have hm : q ∈ k1s.filter (fun k1 =>
      (!(strTruthy p.callsign) || (k1.callsign == p.callsign)) &&
      decide (|k1.ts - p.ts| ≤ 2)) :=
    List.mem_filter.2 ⟨hmem, by simp [hpass, hd2]⟩
  have hallc : ∀ r ∈ k1s.filter (fun k1 =>
      (!(strTruthy p.callsign) || (k1.callsign == p.callsign)) &&
      decide (|k1.ts - p.ts| ≤ 2)), r = q := by
    intro r hr
    have hr2 := List.mem_filter.1 hr
    have hle : |r.ts - p.ts| ≤ 2 := by
      have := hr2.2
      simp only [Bool.and_eq_true, decide_eq_true_eq] at this
      exact this.2
    exact hall r hr2.1 hle
  have hscan := scanFold_const p.ts _ q (List.ne_nil_of_mem hm) hallc
    (lt_of_le_of_lt hd2 (by norm_num))
  have hdl : ((k1s.filter (fun k1 =>
      (!(strTruthy p.callsign) || (k1.callsign == p.callsign)) &&
      decide (|k1.ts - p.ts| ≤ 2))).map Packet.callsign).dedup.length = 1 := by
    refine dedup_length_one (a := q.callsign) (List.mem_map_of_mem Packet.callsign hm) ?_
    intro y hy
    rcases List.mem_map.1 hy with ⟨r, hr, rfl⟩
    rw [hallc r hr]
  simp only [k2Prox, hscan, hdl, if_true]
  by_cases h1 : |q.ts - p.ts| ≤ 1
  · simp [h1]
  · simp [h1, hd2]

theorem k2Prox_ambiguous (k1s : List Packet) (p q1 q2 : Packet)
    (hcs : p.callsign = none) (h1 : q1 ∈ k1s) (h2 : q2 ∈ k1s)
    (hd1 : |q1.ts - p.ts| ≤ 2) (hd2 : |q2.ts - p.ts| ≤ 2)
    (hne : q1.callsign ≠ q2.callsign) :
    k2Prox k1s p = (0, p.callsign) := by
  have hpass : ∀ r : Packet,
      (!(strTruthy p.callsign) || (r.callsign == p.callsign)) = true := by
    intro r
    rw [hcs]
    rfl
  have hm1 : q1 ∈ k1s.filter (fun k1 =>
      (!(strTruthy p.callsign) || (k1.callsign == p.callsign)) &&
      decide (|k1.ts - p.ts| ≤ 2)) :=
    List.mem_filter.2 ⟨h1, by simp [hpass q1, hd1]⟩
  have hm2 : q2 ∈ k1s.filter (fun k1 =>
      (!(strTruthy p.callsign) || (k1.callsign == p.callsign)) &&
      decide (|k1.ts - p.ts| ≤ 2)) :=
    List.mem_filter.2 ⟨h2, by simp [hpass q2, hd2]⟩
  have hdl := dedup_length_ne_one (List.mem_map_of_mem Packet.callsign hm1)
    (List.mem_map_of_mem Packet.callsign hm2) hne
  simp only [k2Prox]
  split
  · rw [if_neg hdl]
  · rfl

/-- C5 (counterexample): the claim's premises hold — one identity event
`"X"` within 1 s of the measurement's time and no other identity event within
±20 s — yet because the measurement already carries the conflicting label
`"Y"`, the conflict filter empties the proximity window: the computed
confidence is 20, not 70, and the label stays `"Y"`. -/
theorem C5_counterexample :
    exK2C5 ∈ k2Targets 200 exDbC5 ∧
    exK1C5 ∈ k1Context 200 exDbC5 ∧
    exK1C5.callsign = some "X" ∧
    |exK1C5.ts - exK2C5.ts| ≤ 1 ∧
    (∀ r ∈ k1Context 200 exDbC5, |r.ts - exK2C5.ts| ≤ 20 → r = exK1C5) ∧
    (k2Compute (k1Context 200 exDbC5) exK2C5).1 = 20 ∧
    (k2Compute (k1Context 200 exDbC5) exK2C5).2.1 = some "Y" ∧
    ¬((k2Compute (k1Context 200 exDbC5) exK2C5).1 = 70 ∧
      (k2Compute (k1Context 200 exDbC5) exK2C5).2.1 = some "X") := by
  decide

/-- C5 (amended): for a Measurement event selected for binding at time `t`
that carries no conflicting pre-attached label (its stored label is empty or
already `"X"`), if exactly one context Identity event — labelled `"X"` —
lies within 1 s of `t` and no other context Identity event lies within
±20 s, the recomputed confidence is exactly 70 (20 global + 50 proximity)
and the adopted label is `"X"`. -/
theorem C5_window_correctness (now : ℚ) (db : List Packet) (p q : Packet) (x : String)
    (hq : q ∈ k1Context now db) (hqcs : q.callsign = some x)
    (hnear : |q.ts - p.ts| ≤ 1)
    (honly : ∀ r ∈ k1Context now db, |r.ts - p.ts| ≤ 20 → r = q)
    (hcs : p.callsign = none ∨ p.callsign = some x) :
    (k2Compute (k1Context now db) p).1 = 70 ∧
      (k2Compute (k1Context now db) p).2.1 = some x := by
  have hd2 : |q.ts - p.ts| ≤ 2 := le_trans hnear (by norm_num)
  have hd20 : |q.ts - p.ts| ≤ 20 := le_trans hnear (by norm_num)
  have hpass : (!(strTruthy p.callsign) || (q.callsign == p.callsign)) = true := by
    rcases hcs with h | h
    · rw [h]
      rfl
    · rw [h, hqcs]
      simp
  have hall2 : ∀ r ∈ k1Context now db, |r.ts - p.ts| ≤ 2 → r = q :=
    fun r hr h2 => honly r hr (le_trans h2 (by norm_num))
  have hpx := k2Prox_single (k1Context now db) p q hq hpass hd2 hall2
  rw [if_pos hnear] at hpx
  have hgb := globalBonus_single (k1Context now db) p.ts q x hq hqcs hd20 honly
  constructor
  · show min (k2RawScore (k1Context now db) p) 100 = 70
    rw [k2RawScore, hgb, hpx]
    norm_num
  · show (k2Prox (k1Context now db) p).2 = some x
    rw [hpx]
    exact hqcs

/-- Witness: the amended C5 at the concrete store `exDbW`. -/
theorem C5_window_correctness_witness :
    (k2Compute (k1Context 200 exDbW) exK2W).1 = 70 ∧
      (k2Compute (k1Context 200 exDbW) exK2W).2.1 = some "X" :=
  C5_window_correctness 200 exDbW exK2W exK1W "X" (by decide) (by decide) (by decide)
    (by decide) (Or.inl (by decide))

/-- C6 (counterexample): two identity events with distinct labels (`"A"` at
1.5 s, `"B"` at 0.5 s) both lie within ±2 s of the measurement's time, but
because the measurement already carries label `"A"`, the conflict filter
drops `"B"` before the collision check, and a proximity bonus of 20 is
applied anyway. -/
theorem C6_counterexample :
    exQ6A ∈ k1Context 200 exDbC6 ∧ exQ6B ∈ k1Context 200 exDbC6 ∧
    |exQ6A.ts - exP6.ts| ≤ 2 ∧ |exQ6B.ts - exP6.ts| ≤ 2 ∧
    exQ6A.callsign ≠ exQ6B.callsign ∧
    exP6 ∈ k2Targets 200 exDbC6 ∧
    (k2Prox (k1Context 200 exDbC6) exP6).1 = 20 ∧
    (k2Prox (k1Context 200 exDbC6) exP6).1 ≠ 0 := by
  decide

/-- C6 (amended): for a Measurement event with no pre-attached identity
label, if two identity events carrying distinct labels both lie within ±2 s
of its time, no proximity bonus is added (the computed confidence is the
global bonus alone) and the label is left unchanged. -/
theorem C6_collision_no_bonus (k1s : List Packet) (p q1 q2 : Packet)
    (hcs : p.callsign = none) (h1 : q1 ∈ k1s) (h2 : q2 ∈ k1s)
    (hd1 : |q1.ts - p.ts| ≤ 2) (hd2 : |q2.ts - p.ts| ≤ 2)
    (hne : q1.callsign ≠ q2.callsign) :
    (k2Compute k1s p).1 = globalBonus k1s p.ts ∧ (k2Compute k1s p).2.1 = p.callsign := by
  have hpx := k2Prox_ambiguous k1s p q1 q2 hcs h1 h2 hd1 hd2 hne
  constructor
  · show min (k2RawScore k1s p) 100 = globalBonus k1s p.ts
    rw [k2RawScore, hpx]
    rcases globalBonus_cases k1s p.ts with h | h <;> rw [h] <;> norm_num
  · show (k2Prox k1s p).2 = p.callsign
    rw [hpx]

/-- Witness: the amended C6 at a concrete unlabelled measurement. -/
theorem C6_collision_no_bonus_witness :
    (k2Compute [exQ6A, exQ6B] exK2W).1 = globalBonus [exQ6A, exQ6B] exK2W.ts ∧
      (k2Compute [exQ6A, exQ6B] exK2W).2.1 = exK2W.callsign :=
  C6_collision_no_bonus [exQ6A, exQ6B] exK2W exQ6A exQ6B (by decide) (by decide)
    (by decide) (by decide) (by decide) (by decide)

theorem k1NewFor_some_sent (now : ℚ) (db : List Packet) (p : Packet) (nf : Int)
    (h : k1NewFor now db p = some nf) : p.sent = 1 := by
  have hel : k1Eligible now p = true := by
    by_cases hb : (k1Eligible now p && !(p.callsign == none)) = true
    · exact (Bool.and_eq_true _ _ ▸ hb).1
    · rw [k1NewFor, if_neg hb] at h
      exact absurd h (by simp)
  simp only [k1Eligible, Bool.and_eq_true, beq_iff_eq] at hel
  exact hel.1.2

theorem k1NewFor_of_sent_ne (now : ℚ) (db : List Packet) (p : Packet)
    (hs : p.sent ≠ 1) : k1NewFor now db p = none := by
  rw [k1NewFor, if_neg]
  intro hb
  have hel := (Bool.and_eq_true _ _ ▸ hb).1
  simp only [k1Eligible, Bool.and_eq_true, beq_iff_eq] at hel
  exact hs hel.1.2

/-- C7: the identity-frequency aging pass.  (a) The count → confidence map is
`<2 → 30`, `[2,5) → no update`, `[5,10) → 75`, `[10,20) → 90`, `≥20 → 100`.
(b) Rows that are not Synced are never touched.  (c) The only status
transition is Synced (1) → PendingUpdate (2).  (d) For a Synced identity row
with callsign `cs` inside the trailing 30 s window, the pass recomputes from
the window count of `cs`, writes the row iff its stored confidence differs
from the recomputed value, and then sets exactly that confidence and
status 2. -/
theorem C7_k1_frequency_aging (now : ℚ) (db : List Packet) (p : Packet) :
    (∀ c : Nat, (c < 2 → k1NewFaith c = some 30) ∧
      (2 ≤ c → c < 5 → k1NewFaith c = none) ∧
      (5 ≤ c → c < 10 → k1NewFaith c = some 75) ∧
      (10 ≤ c → c < 20 → k1NewFaith c = some 90) ∧
      (20 ≤ c → k1NewFaith c = some 100)) ∧
    (p.sent ≠ 1 → k1Apply now db p = p ∧ k1Written now db p = false) ∧
    ((k1Apply now db p).sent = p.sent ∨ (p.sent = 1 ∧ (k1Apply now db p).sent = 2)) ∧
    (∀ cs : String, p.ptype = 1 → p.sent = 1 → now - 30 ≤ p.createdAt →
      p.callsign = some cs →
      k1NewFor now db p = k1NewFaith (k1Count now db (some cs)) ∧
      (∀ nf : Int, k1NewFaith (k1Count now db (some cs)) = some nf →
        (k1Written now db p = true ↔ p.faithfulness ≠ nf) ∧
        (p.faithfulness ≠ nf →
          k1Apply now db p = { p with faithfulness := nf, sent := 2 }) ∧
        (p.faithfulness = nf → k1Apply now db p = p)) ∧
      (k1NewFaith (k1Count now db (some cs)) = none →
        k1Apply now db p = p ∧ k1Written now db p = false)) := by
  refine ⟨?_, ?_, ?_, ?_⟩
  · intro c
    refine ⟨fun h => ?_, fun h2 h5 => ?_, fun h5 h10 => ?_, fun h10 h20 => ?_,
      fun h20 => ?_⟩
    · rw [k1NewFaith, if_pos h]
    · rw [k1NewFaith, if_neg (by omega), if_pos h5]
    · rw [k1NewFaith, if_neg (by omega), if_neg (by omega), if_pos h10]
    · rw [k1NewFaith, if_neg (by omega), if_neg (by omega), if_neg (by omega), if_pos h20]
    · rw [k1NewFaith, if_neg (by omega), if_neg (by omega), if_neg (by omega),
        if_neg (by omega)]
  · intro hs
    have hnf := k1NewFor_of_sent_ne now db p hs
    constructor
    · simp only [k1Apply, hnf]
    · simp only [k1Written, hnf]
  · rcases h : k1NewFor now db p with _ | nf
    · left
      simp only [k1Apply, h]
    · by_cases hf : p.faithfulness = nf
      · left
        simp only [k1Apply, h]
        rw [if_pos (by simpa using hf)]
      · right
        refine ⟨k1NewFor_some_sent now db p nf h, ?_⟩
        simp only [k1Apply, h]
        rw [if_neg (by simpa using hf)]
  · intro cs hpt hs hcw hcs2
    have he : k1Eligible now p = true := by
      simp [k1Eligible, hpt, hs, hcw]
    have hc : (k1Eligible now p && !(p.callsign == none)) = true := by
      rw [he, hcs2]
      rfl
    have hN : k1NewFor now db p = k1NewFaith (k1Count now db (some cs)) := by
      rw [k1NewFor, if_pos hc, hcs2]
    refine ⟨hN, ?_, ?_⟩
    · intro nf hnf
      have hNf : k1NewFor now db p = some nf := hN.trans hnf
      refine ⟨?_, fun hne => ?_, fun heq => ?_⟩
      · simp only [k1Written, hNf]
        simp
      · simp only [k1Apply, hNf]
        rw [if_neg (by simpa using hne)]
      · simp only [k1Apply, hNf]
        rw [if_pos (by simpa using heq)]
    · intro hnone
      have hNf : k1NewFor now db p = none := hN.trans hnone
      exact ⟨by simp only [k1Apply, hNf], by simp only [k1Written, hNf]⟩

/-- Witness: C7 at the concrete store `exDbC2`, whose `"X"` window count is
6 (band `[5,10)`, recomputed confidence 75). -/
theorem C7_k1_frequency_aging_witness :
    k1NewFor 0 exDbC2 (exRowC2 1 30) = k1NewFaith (k1Count 0 exDbC2 (some "X")) ∧
    (k1Written 0 exDbC2 (exRowC2 1 30) = true ↔ (exRowC2 1 30).faithfulness ≠ 75) ∧
    ((exRowC2 1 30).faithfulness ≠ 75 →
      k1Apply 0 exDbC2 (exRowC2 1 30) = { exRowC2 1 30 with faithfulness := 75, sent := 2 }) := by
  have h := (C7_k1_frequency_aging 0 exDbC2 (exRowC2 1 30)).2.2.2 "X" (by decide) (by decide)
    (by decide) (by decide)
  have h2 := h.2.1 75 (by decide)
  exact ⟨h.1, h2.1, h2.2.1⟩

/-- C4 (counterexample): HTTP 201 — a 2xx status — is treated as a failure:
`send_packets_to_api` returns `False` and the transmitted batch is not
marked Synced, because the code tests `status_code == 200` exactly. -/
theorem C4_counterexample :
    (200 ≤ 201 ∧ 201 < 300) ∧
    sendResult (SendOutcome.httpResp 201) = false ∧
    (send_packets_to_api (SendOutcome.httpResp 201) [exPend] [exPend]).2 = false ∧
    (send_packets_to_api (SendOutcome.httpResp 201) [exPend] [exPend]).1 = [exPend] := by
  decide

/-- C4 (amended): the Delivery Engine treats exactly HTTP status 200 as
success; every other status — including other 2xx codes — and every network
exception is a retryable failure that leaves the store untouched.  On
success the whole transmitted batch is marked Synced in one update keyed by
uuid (an empty batch short-circuits to success without I/O). -/
theorem C4_success_criterion (outcome : SendOutcome) (packets : List Packet)
    (db : List Packet) :
    (∀ s : Nat, sendResult (SendOutcome.httpResp s) = true ↔ s = 200) ∧
    (sendResult SendOutcome.connError = false ∧ sendResult SendOutcome.timeoutErr = false ∧
      sendResult SendOutcome.otherExc = false) ∧
    ((send_packets_to_api outcome packets db).2 = true ↔
      (packets = [] ∨ sendResult outcome = true)) ∧
    ((send_packets_to_api outcome packets db).2 = false →
      (send_packets_to_api outcome packets db).1 = db) ∧
    (packets ≠ [] → sendResult outcome = true →
      (send_packets_to_api outcome packets db).1 =
        mark_packets_as_synced (packets.map Packet.uuid) db) := by
  refine ⟨?_, ⟨rfl, rfl, rfl⟩, ?_, ?_, ?_⟩
  · intro s
    simp [sendResult]
  · by_cases hp : packets = []
    · simp [send_packets_to_api, hp]
    · by_cases hr : sendResult outcome = true
      · simp [send_packets_to_api, hp, hr]
      · simp [send_packets_to_api, hp, hr]
  · intro hf
    by_cases hp : packets = []
    · rw [send_packets_to_api, if_pos hp]
    · by_cases hr : sendResult outcome = true
      · rw [send_packets_to_api, if_neg hp, if_pos hr] at hf
        exact absurd hf (by simp)
      · rw [send_packets_to_api, if_neg hp, if_neg hr]
  · intro hp hr
    rw [send_packets_to_api, if_neg hp, if_pos hr]

/-- Witness: C4 at HTTP 200 with a one-row pending batch. -/
theorem C4_success_criterion_witness :
    sendResult (SendOutcome.httpResp 200) = true ∧
    (send_packets_to_api (SendOutcome.httpResp 200) [exPend] [exPend]).1 =
      mark_packets_as_synced [exPend.uuid] [exPend] := by
  refine ⟨by decide, ?_⟩
  exact (C4_success_criterion (SendOutcome.httpResp 200) [exPend] [exPend]).2.2.2.2
    (by decide) (by decide)

theorem get_pending_subset (db : List Packet) (batch : Nat) :
    ∀ r ∈ get_pending_packets db batch, r ∈ db := by
  intro r hr
  have h1 := List.mem_of_mem_take hr
  have h2 := List.mem_of_mem_filter h1
  exact (List.perm_insertionSort _ db).subset h2

/-- C3: at-least-once delivery.  Under a failing transmission, any number of
delivery cycles leaves the store identical (so a pending event stays
eligible for retry indefinitely); and a pending event's status becomes
Synced in a cycle iff the transmission succeeds and the transmitted batch
includes the event — otherwise its row is completely unchanged. -/
theorem C3_at_least_once (db : List Packet) (outcome : SendOutcome) (batch : Nat)
    (p : Packet) (hnd : (db.map Packet.uuid).Nodup) (hp : p ∈ db)
    (hpend : p.sent = 0 ∨ p.sent = 2) :
    (sendResult outcome = false → ∀ n : Nat, (deliveryCycle outcome batch)^[n] db = db) ∧
    (∃ q ∈ deliveryCycle outcome batch db, q.uuid = p.uuid ∧
      (q.sent = 1 ↔ sendResult outcome = true ∧ p ∈ get_pending_packets db batch) ∧
      (q.sent ≠ 1 → q = p)) := by
  have hp1 : p.sent ≠ 1 := by
    rcases hpend with h | h <;> rw [h] <;> decide
  have hfail : sendResult outcome = false → deliveryCycle outcome batch db = db := by
    intro hf
    by_cases he : get_pending_packets db batch = []
    · rw [deliveryCycle, if_pos he]
    · rw [deliveryCycle, if_neg he, send_packets_to_api, if_neg he, if_neg (by simp [hf])]
  constructor
  · intro hf n
    induction n with
    | zero => rfl
    | succ k ih => rw [Function.iterate_succ_apply', ih, hfail hf]
  · by_cases hr : sendResult outcome = true
    · by_cases he : get_pending_packets db batch = []
      · refine ⟨p, ?_, rfl, ?_, fun _ => rfl⟩
        · rw [deliveryCycle, if_pos he]
          exact hp
        · rw [he]
          simp [hp1]
      · have hdb : deliveryCycle outcome batch db =
            mark_packets_as_synced ((get_pending_packets db batch).map Packet.uuid) db := by
          rw [deliveryCycle, if_neg he, send_packets_to_api, if_neg he, if_pos hr]
        refine ⟨if p.uuid ∈ (get_pending_packets db batch).map Packet.uuid then
            { p with sent := 1 } else p, ?_, ?_, ?_, ?_⟩
        · rw [hdb, mark_packets_as_synced]
          exact List.mem_map_of_mem _ hp
        · by_cases hin : p.uuid ∈ (get_pending_packets db batch).map Packet.uuid
          · rw [if_pos hin]
          · rw [if_neg hin]
        · have hinp : p.uuid ∈ (get_pending_packets db batch).map Packet.uuid ↔
              p ∈ get_pending_packets db batch := by
            constructor
            · intro hin
              rcases List.mem_map.1 hin with ⟨r, hrmem, hru⟩
              have : r = p :=
                List.inj_on_of_nodup_map hnd (get_pending_subset db batch r hrmem) hp hru
              exact this ▸ hrmem
            · exact fun h => List.mem_map_of_mem _ h
          by_cases hin : p.uuid ∈ (get_pending_packets db batch).map Packet.uuid
          · rw [if_pos hin]
            simp only [show ({ p with sent := 1 } : Packet).sent = 1 from rfl]
            simp [hr, hinp.1 hin]
          · rw [if_neg hin]
            simp only [hp1, false_iff]
            intro hcon
            exact hin (hinp.2 hcon.2)
        · by_cases hin : p.uuid ∈ (get_pending_packets db batch).map Packet.uuid
          · rw [if_pos hin]
            intro hq
            exact absurd rfl hq
          · rw [if_neg hin]
            intro _
            rfl
    · have hf : sendResult outcome = false := by
        rcases h : sendResult outcome
        · rfl
        · exact absurd h hr
      refine ⟨p, ?_, rfl, ?_, fun _ => rfl⟩
      · rw [hfail hf]
        exact hp
      · rw [hf]
        simp [hp1]

/-- Witness: C3 for a pending row transmitted with HTTP 200. -/
theorem C3_at_least_once_witness :
    (sendResult (SendOutcome.httpResp 200) = false →
      ∀ n : Nat, (deliveryCycle (SendOutcome.httpResp 200) 1)^[n] [exPend] = [exPend]) ∧
    (∃ q ∈ deliveryCycle (SendOutcome.httpResp 200) 1 [exPend], q.uuid = exPend.uuid ∧
      (q.sent = 1 ↔ sendResult (SendOutcome.httpResp 200) = true ∧
        exPend ∈ get_pending_packets [exPend] 1) ∧
      (q.sent ≠ 1 → q = exPend)) :=
  C3_at_least_once [exPend] (SendOutcome.httpResp 200) 1 exPend (by decide) (by decide)
    (by decide)

/-- C1 (code bug): `flush_packets` leaves the store and count unchanged on a
failed insert, and its own comment states the buffer must be retained and
retried; but the caller (`parser_loop`, parser.py line 381) sets
`packets_buffer = []` unconditionally after the call.  An event buffered
during a failed flush is therefore dropped: after a failing flush followed
by a successful one the persisted store contains it 0 times, not exactly
once — while a single successful flush persists it exactly once. -/
theorem C1_buffer_lost_on_failed_flush :
    flush_packets .failure [] [sampleK1Packet] 0 = ([], 0) ∧
    loopFlushStep .failure [] [sampleK1Packet] 0 = ([], [], 0) ∧
    (loopFlushStep .ok
      (loopFlushStep .failure [] [sampleK1Packet] 0).1
      (loopFlushStep .failure [] [sampleK1Packet] 0).2.1
      (loopFlushStep .failure [] [sampleK1Packet] 0).2.2).1.count sampleK1Packet = 0 ∧
    (loopFlushStep .ok [] [sampleK1Packet] 0).1.count sampleK1Packet = 1 := by
  decide

/-- C9 (counterexample): the freshly parsed Measurement row of the sample K2
line is created with `sent = 0`, and a store holding only that row already
returns it from the Delivery Engine's pending query — a newly inserted
Measurement event IS immediately among the events selected as pending
transmission, contrary to the claim's parenthesis. -/
theorem C9_counterexample :
    parse_line sampleK2Line.toList "2024-01-01" = some sampleK2Packet ∧
    sampleK2Packet.sent = 0 ∧
    get_pending_packets [insertRow sampleK2Packet 1 0 0] 100 =
      [insertRow sampleK2Packet 1 0 0] := by
  decide

/-- C9 (amended): every event the Stream Reader inserts gets a status that
depends only on its kind — Identity rows are created Synced (`sent = 1`),
Measurement rows with `sent = 0` — and `sent = 0` is one of the two statuses
the Delivery Engine's pending query selects, so a newly inserted Measurement
event is immediately pending transmission. -/
theorem C9_insert_status (line : List Char) (dateStr : String) (pk : ParsedPacket)
    (u : Nat) (ts createdAt : ℚ) :
    (parse_k1_packet line dateStr = some pk → pk.sent = 1) ∧
    (parse_k2_packet line dateStr = some pk → pk.sent = 0 ∧
      pendingPred (insertRow pk u ts createdAt) = true ∧
      get_pending_packets [insertRow pk u ts createdAt] 1 =
        [insertRow pk u ts createdAt]) := by
  constructor
  · intro h
    rcases hm : k1Match line with _ | ⟨hh, mm, ss, label⟩
    · rw [parse_k1_packet, hm] at h
      exact absurd h (by simp)
    · rw [parse_k1_packet, hm] at h
      rw [← Option.some.inj h]
  · intro h
    rcases hm : k2Match line with _ | ⟨hh, mm, ss, alt, fuel⟩
    · rw [parse_k2_packet, hm] at h
      exact absurd h (by simp)
    · rw [parse_k2_packet, hm] at h
      have hs : pk.sent = 0 := by rw [← Option.some.inj h]
      have hpp : pendingPred (insertRow pk u ts createdAt) = true := by
        simp [pendingPred, insertRow, hs]
      refine ⟨hs, hpp, ?_⟩
      simp [get_pending_packets, List.insertionSort, List.orderedInsert, hpp]

/-- Witness: C9 on the two sample lines. -/
theorem C9_insert_status_witness :
    sampleK1Packet.sent = 1 ∧
    (sampleK2Packet.sent = 0 ∧
      pendingPred (insertRow sampleK2Packet 1 0 0) = true ∧
      get_pending_packets [insertRow sampleK2Packet 1 0 0] 1 =
        [insertRow sampleK2Packet 1 0 0]) :=
  ⟨(C9_insert_status sampleK1Line.toList "2024-01-01" sampleK1Packet 1 0 0).1 (by decide),
   (C9_insert_status sampleK2Line.toList "2024-01-01" sampleK2Packet 1 0 0).2 (by decide)⟩

theorem head_cons_char {c d : Char} {t : List Char} (h : (d :: t).head? = some c) : c = d := by
  simp only [List.head?_cons, Option.some.injEq] at h
  exact h.symm

theorem pySpace_not_digit {c : Char} (h : pySpace c = true) : c.isDigit = false := by
  simp only [pySpace, Bool.or_eq_true, beq_iff_eq] at h
  rcases h with ((((h | h) | h) | h) | h) | h <;> subst h <;> decide

theorem dropWhile_head_false {p : Char → Bool} {l : List Char}
    (h : ∀ c, l.head? = some c → p c = false) : l.dropWhile p = l := by
  rcases l with _ | ⟨c, t⟩
  · rfl
  · rw [List.dropWhile_cons, h c rfl]
    simp

theorem takeWhile_dropWhile_append {p : Char → Bool} (l r : List Char)
    (hl : ∀ c ∈ l, p c = true) (hr : ∀ c, r.head? = some c → p c = false) :
    (l ++ r).takeWhile p = l ∧ (l ++ r).dropWhile p = r := by
  induction l with
  | nil =>
    refine ⟨?_, dropWhile_head_false hr⟩
    rcases r with _ | ⟨c, t⟩
    · rfl
    · rw [List.nil_append, List.takeWhile_cons, hr c rfl]
      simp
  | cons a l' ih =>
    have ha := hl a (List.mem_cons_self a l')
    have ih' := ih (fun c hc => hl c (List.mem_cons_of_mem a hc))
    constructor
    · simp [List.takeWhile_cons, ha, ih'.1]
    · simp [List.dropWhile_cons, ha, ih'.2]

theorem digits1_append (d rest : List Char) (hne : d ≠ []) (hd : ∀ c ∈ d, c.isDigit = true)
    (hr : ∀ c, rest.head? = some c → c.isDigit = false) :
    digits1 (d ++ rest) = some (d, rest) := by
  have h := takeWhile_dropWhile_append (p := Char.isDigit) d rest hd hr
  rw [digits1, h.1, h.2, if_neg]
  simp [hne]

theorem spaces1_append (w rest : List Char) (hne : w ≠ [])
    (hall : ∀ c ∈ w, pySpace c = true)
    (hr : ∀ c, rest.head? = some c → pySpace c = false) :
    spaces1 (w ++ rest) = some rest := by
  rcases w with _ | ⟨c, w'⟩
  · exact absurd rfl hne
  · have hc := hall c (List.mem_cons_self c w')
    have hdw := (takeWhile_dropWhile_append (p := pySpace) w' rest
      (fun d hd => hall d (List.mem_cons_of_mem c hd)) hr).2
    simp [spaces1, hc, hdw]

theorem timePrefix_append (h1 h2 m1 m2 s1 s2 : Char) (ms us w2 rest : List Char)
    (hd1 : h1.isDigit = true) (hd2 : h2.isDigit = true)
    (hd3 : m1.isDigit = true) (hd4 : m2.isDigit = true)
    (hd5 : s1.isDigit = true) (hd6 : s2.isDigit = true)
    (hmsne : ms ≠ []) (hmsd : ∀ c ∈ ms, c.isDigit = true)
    (husne : us ≠ []) (husd : ∀ c ∈ us, c.isDigit = true)
    (hw2ne : w2 ≠ []) (hw2 : ∀ c ∈ w2, pySpace c = true)
    (hrest : ∀ c, rest.head? = some c → pySpace c = false) :
    timePrefix (h1 :: h2 :: ':' :: m1 :: m2 :: ':' :: s1 :: s2 :: '.' ::
      (ms ++ '.' :: (us ++ (w2 ++ rest)))) =
      some ([h1, h2], [m1, m2], [s1, s2], rest) := by
  have e1 : digits1 (ms ++ '.' :: (us ++ (w2 ++ rest))) =
      some (ms, '.' :: (us ++ (w2 ++ rest))) :=
    digits1_append ms _ hmsne hmsd (fun c hc => by rw [head_cons_char hc]; decide)
  have hw2h : ∀ c, (w2 ++ rest).head? = some c → c.isDigit = false := by
    rcases w2 with _ | ⟨cw, w2'⟩
    · exact absurd rfl hw2ne
    · intro c hc
      rw [List.cons_append] at hc
      rw [head_cons_char hc]
      exact pySpace_not_digit (hw2 cw (List.mem_cons_self cw w2'))
  have e2 : digits1 (us ++ (w2 ++ rest)) = some (us, w2 ++ rest) :=
    digits1_append us _ husne husd hw2h
  have e3 : spaces1 (w2 ++ rest) = some rest := spaces1_append w2 rest hw2ne hw2 hrest
  simp [timePrefix, digits2, hd1, hd2, hd3, hd4, hd5, hd6, expectChar, e1, e2, e3]


theorem digit_not_space {c : Char} (h : c.isDigit = true) : pySpace c = false := by
  rcases hs : pySpace c
  · rfl
  · rw [pySpace_not_digit hs] at h
    exact absurd h (by simp)

theorem tailLabel_append (mid label : List Char) (hne : label ≠ [])
    (hdig : label.all Char.isDigit = true) :
    tailLabel (mid ++ ':' :: label) = some label := by
  induction mid with
  | nil =>
    rw [List.nil_append]
    simp only [tailLabel, if_true]
    rw [if_pos]
    rw [Bool.and_eq_true]
    constructor
    · simp [List.isEmpty_iff, hne]
    · exact hdig
  | cons c mid' ih =>
    rw [List.cons_append]
    simp only [tailLabel]
    by_cases hc : c = ':'
    · rw [if_pos hc, if_neg, ih]
      intro hcond
      have hall := (Bool.and_eq_true _ _ ▸ hcond).2
      have hmm : (':' : Char) ∈ mid' ++ ':' :: label := by simp
      have := List.all_eq_true.1 hall _ hmm
      exact absurd this (by decide)
    · rw [if_neg hc, ih]

theorem pyStrip_eq_self {l : List Char}
    (hh : ∀ c, l.head? = some c → pySpace c = false)
    (hl : ∀ c, l.getLast? = some c → pySpace c = false) : pyStrip l = l := by
  rw [pyStrip, dropWhile_head_false hh, dropWhile_head_false, List.reverse_reverse]
  intro c hc
  rw [List.head?_reverse] at hc
  exact hl c hc

theorem all_getLast {p : Char → Bool} {l : List Char} (h : l.all p = true)
    (c : Char) (hc : l.getLast? = some c) : p c = true :=
  List.all_eq_true.1 h c (List.mem_of_getLast?_eq_some hc)

theorem k1Match_append (w1 : List Char) (h1 h2 m1 m2 s1 s2 : Char)
    (ms us w2 mid label : List Char)
    (hw1ne : w1 ≠ []) (hw1 : ∀ c ∈ w1, pySpace c = true)
    (hd1 : h1.isDigit = true) (hd2 : h2.isDigit = true)
    (hd3 : m1.isDigit = true) (hd4 : m2.isDigit = true)
    (hd5 : s1.isDigit = true) (hd6 : s2.isDigit = true)
    (hmsne : ms ≠ []) (hmsd : ∀ c ∈ ms, c.isDigit = true)
    (husne : us ≠ []) (husd : ∀ c ∈ us, c.isDigit = true)
    (hw2ne : w2 ≠ []) (hw2 : ∀ c ∈ w2, pySpace c = true)
    (hmid : headNotSpace mid = true)
    (hlne : label ≠ []) (hld : label.all Char.isDigit = true) :
    k1Match ('K' :: '1' :: (w1 ++ (h1 :: h2 :: ':' :: m1 :: m2 :: ':' :: s1 :: s2 :: '.' ::
      (ms ++ '.' :: (us ++ (w2 ++ (mid ++ ':' :: label))))))) =
      some ([h1, h2], [m1, m2], [s1, s2], label) := by
  have hmidh : ∀ c, (mid ++ ':' :: label).head? = some c → pySpace c = false := by
    rcases mid with _ | ⟨cm, mid'⟩
    · intro c hc
      rw [List.nil_append] at hc
      rw [head_cons_char hc]
      decide
    · intro c hc
      rw [List.cons_append] at hc
      rw [head_cons_char hc]
      simpa [headNotSpace] using hmid
  have e1 : spaces1 (w1 ++ (h1 :: h2 :: ':' :: m1 :: m2 :: ':' :: s1 :: s2 :: '.' ::
      (ms ++ '.' :: (us ++ (w2 ++ (mid ++ ':' :: label)))))) =
      some (h1 :: h2 :: ':' :: m1 :: m2 :: ':' :: s1 :: s2 :: '.' ::
      (ms ++ '.' :: (us ++ (w2 ++ (mid ++ ':' :: label))))) :=
    spaces1_append w1 _ hw1ne hw1
      (fun c hc => by rw [head_cons_char hc]; exact digit_not_space hd1)
  have e2 := timePrefix_append h1 h2 m1 m2 s1 s2 ms us w2 (mid ++ ':' :: label)
    hd1 hd2 hd3 hd4 hd5 hd6 hmsne hmsd husne husd hw2ne hw2 hmidh
  have e3 : tailLabel (mid ++ ':' :: label) = some label := tailLabel_append mid label hlne hld
  simp [k1Match, e1, e2, e3]

theorem flBlock_append (ws alt rest : List Char)
    (hws : ∀ c ∈ ws, pySpace c = true)
    (hane : alt ≠ []) (had : ∀ c ∈ alt, c.isDigit = true) :
    flBlock ('F' :: 'L' :: (ws ++ (alt ++ 'm' :: rest))) = some (alt, rest) := by
  have hdw : (ws ++ (alt ++ 'm' :: rest)).dropWhile pySpace = alt ++ 'm' :: rest := by
    apply (takeWhile_dropWhile_append ws _ hws ?_).2
    intro c hc
    rcases alt with _ | ⟨ca, alt'⟩
    · exact absurd rfl hane
    · rw [List.cons_append] at hc
      rw [head_cons_char hc]
      exact digit_not_space (had ca (List.mem_cons_self ca alt'))
  have e1 : digits1 (alt ++ 'm' :: rest) = some (alt, 'm' :: rest) :=
    digits1_append alt _ hane had (fun c hc => by rw [head_cons_char hc]; decide)
  simp [flBlock, hdw, e1, expectChar]

theorem fuelScan_not_F (c : Char) (r : List Char) (h : c ≠ 'F') :
    fuelScan (c :: r) = fuelScan r := by
  simp [fuelScan, h]

theorem fuelScan_F_cons (d : Char) (t : List Char) (hd : d ≠ ':') :
    fuelScan ('F' :: d :: t) = fuelScan (d :: t) := by
  simp only [fuelScan, if_true]
  split
  · rename_i r2 heq
    rw [List.cons.injEq] at heq
    exact absurd heq.1 hd
  · rfl

theorem fuelScan_hit (fuel rest : List Char) (hfne : fuel ≠ [])
    (hfd : ∀ c ∈ fuel, c.isDigit = true) :
    fuelScan ('F' :: ':' :: (fuel ++ '%' :: rest)) = some fuel := by
  have e1 : digits1 (fuel ++ '%' :: rest) = some (fuel, '%' :: rest) :=
    digits1_append fuel _ hfne hfd (fun c hc => by rw [head_cons_char hc]; decide)
  simp [fuelScan, e1]

theorem fuelScan_append (mid2 fuel rest : List Char)
    (hno : ¬ (['F', ':'] <:+: mid2))
    (hfne : fuel ≠ []) (hfd : ∀ c ∈ fuel, c.isDigit = true) :
    fuelScan (mid2 ++ 'F' :: ':' :: (fuel ++ '%' :: rest)) = some fuel := by
  induction mid2 with
  | nil =>
    rw [List.nil_append]
    exact fuelScan_hit fuel rest hfne hfd
  | cons c m' ih =>
    have ih' : fuelScan (m' ++ 'F' :: ':' :: (fuel ++ '%' :: rest)) = some fuel := by
      apply ih
      intro hinf
      rcases hinf with ⟨s, t, hst⟩
      exact hno ⟨c :: s, t, by rw [← hst]; rfl⟩
    rw [List.cons_append]
    by_cases hc : c = 'F'
    · subst hc
      rcases m' with _ | ⟨d, m''⟩
      · rw [List.nil_append]
        rw [show ('F' :: 'F' :: ':' :: (fuel ++ '%' :: rest)) =
          'F' :: ('F' :: ':' :: (fuel ++ '%' :: rest)) from rfl] at *
        rw [fuelScan_F_cons 'F' _ (by decide)]
        exact ih'
      · by_cases hd : d = ':'
        · subst hd
          exact absurd (⟨[], m'', by simp⟩ : ['F', ':'] <:+: 'F' :: ':' :: m'') hno
        · rw [List.cons_append, fuelScan_F_cons d _ hd, ← List.cons_append]
          exact ih'
    · rw [fuelScan_not_F c _ hc]
      exact ih'

theorem flBlock_none_of_ne (c : Char) (t : List Char)
    (h : ∀ r, c :: t ≠ 'F' :: 'L' :: r) : flBlock (c :: t) = none := by
  rw [flBlock.eq_def]
  split
  · rename_i r heq
    exact absurd heq (h r)
  · rfl

theorem flScan_step_none (c : Char) (t : List Char) (h : flBlock (c :: t) = none) :
    flScan (c :: t) = flScan t := by
  simp [flScan, h]

theorem flScan_append (mid1 ws alt mid2 fuel rest : List Char)
    (hno : ¬ (['F', 'L'] <:+: mid1))
    (hws : ∀ c ∈ ws, pySpace c = true)
    (hane : alt ≠ []) (had : ∀ c ∈ alt, c.isDigit = true)
    (hno2 : ¬ (['F', ':'] <:+: mid2))
    (hfne : fuel ≠ []) (hfd : ∀ c ∈ fuel, c.isDigit = true) :
    flScan (mid1 ++ 'F' :: 'L' :: (ws ++ (alt ++ 'm' ::
      (mid2 ++ 'F' :: ':' :: (fuel ++ '%' :: rest))))) = some (alt, fuel) := by
  induction mid1 with
  | nil =>
    rw [List.nil_append]
    have efb := flBlock_append ws alt (mid2 ++ 'F' :: ':' :: (fuel ++ '%' :: rest)) hws hane had
    have efs := fuelScan_append mid2 fuel rest hno2 hfne hfd
    simp [flScan, efb, efs]
  | cons c m1' ih =>
    have ih' := ih (by
      intro hinf
      rcases hinf with ⟨s, t, hst⟩
      exact hno ⟨c :: s, t, by rw [← hst]; rfl⟩)
    rw [List.cons_append]
    have hfb : flBlock (c :: (m1' ++ 'F' :: 'L' :: (ws ++ (alt ++ 'm' ::
        (mid2 ++ 'F' :: ':' :: (fuel ++ '%' :: rest)))))) = none := by
      apply flBlock_none_of_ne
      intro r heq
      rw [List.cons.injEq] at heq
      rcases m1' with _ | ⟨d, m''⟩
      · rw [List.nil_append, List.cons.injEq] at heq
        exact absurd heq.2.1.symm (by decide)
      · rw [List.cons_append, List.cons.injEq] at heq
        exact hno ⟨[], m'', by rw [heq.1, heq.2.1]; simp⟩
    rw [flScan_step_none _ _ hfb]
    exact ih'


theorem lastNotSpace_spec {l : List Char} (h : lastNotSpace l = true) :
    ∀ c, l.getLast? = some c → pySpace c = false := by
  intro c hc
  rw [lastNotSpace, hc] at h
  simpa using h

theorem k2Match_append (w1 : List Char) (h1 h2 m1 m2 s1 s2 : Char)
    (ms us w2 mid1 ws alt mid2 fuel rest : List Char)
    (hw1ne : w1 ≠ []) (hw1 : ∀ c ∈ w1, pySpace c = true)
    (hd1 : h1.isDigit = true) (hd2 : h2.isDigit = true)
    (hd3 : m1.isDigit = true) (hd4 : m2.isDigit = true)
    (hd5 : s1.isDigit = true) (hd6 : s2.isDigit = true)
    (hmsne : ms ≠ []) (hmsd : ∀ c ∈ ms, c.isDigit = true)
    (husne : us ≠ []) (husd : ∀ c ∈ us, c.isDigit = true)
    (hw2ne : w2 ≠ []) (hw2 : ∀ c ∈ w2, pySpace c = true)
    (hm1h : headNotSpace mid1 = true) (hm1no : ¬ (['F', 'L'] <:+: mid1))
    (hws : ∀ c ∈ ws, pySpace c = true)
    (hane : alt ≠ []) (had : ∀ c ∈ alt, c.isDigit = true)
    (hm2no : ¬ (['F', ':'] <:+: mid2))
    (hfne : fuel ≠ []) (hfd : ∀ c ∈ fuel, c.isDigit = true) :
    k2Match ('K' :: '2' :: (w1 ++ (h1 :: h2 :: ':' :: m1 :: m2 :: ':' :: s1 :: s2 :: '.' ::
      (ms ++ '.' :: (us ++ (w2 ++ (mid1 ++ 'F' :: 'L' :: (ws ++ (alt ++ 'm' ::
        (mid2 ++ 'F' :: ':' :: (fuel ++ '%' :: rest))))))))))) =
      some ([h1, h2], [m1, m2], [s1, s2], alt, fuel) := by
  have hrh : ∀ c, (mid1 ++ 'F' :: 'L' :: (ws ++ (alt ++ 'm' ::
      (mid2 ++ 'F' :: ':' :: (fuel ++ '%' :: rest))))).head? = some c →
      pySpace c = false := by
    rcases mid1 with _ | ⟨cm, mid1'⟩
    · intro c hc
      rw [List.nil_append] at hc
      rw [head_cons_char hc]
      decide
    · intro c hc
      rw [List.cons_append] at hc
      rw [head_cons_char hc]
      simpa [headNotSpace] using hm1h
  have e1 : spaces1 (w1 ++ (h1 :: h2 :: ':' :: m1 :: m2 :: ':' :: s1 :: s2 :: '.' ::
      (ms ++ '.' :: (us ++ (w2 ++ (mid1 ++ 'F' :: 'L' :: (ws ++ (alt ++ 'm' ::
        (mid2 ++ 'F' :: ':' :: (fuel ++ '%' :: rest)))))))))) =
      some (h1 :: h2 :: ':' :: m1 :: m2 :: ':' :: s1 :: s2 :: '.' ::
      (ms ++ '.' :: (us ++ (w2 ++ (mid1 ++ 'F' :: 'L' :: (ws ++ (alt ++ 'm' ::
        (mid2 ++ 'F' :: ':' :: (fuel ++ '%' :: rest)))))))))  :=
    spaces1_append w1 _ hw1ne hw1
      (fun c hc => by rw [head_cons_char hc]; exact digit_not_space hd1)
  have e2 := timePrefix_append h1 h2 m1 m2 s1 s2 ms us w2
    (mid1 ++ 'F' :: 'L' :: (ws ++ (alt ++ 'm' :: (mid2 ++ 'F' :: ':' :: (fuel ++ '%' :: rest)))))
    hd1 hd2 hd3 hd4 hd5 hd6 hmsne hmsd husne husd hw2ne hw2 hrh
  have e3 := flScan_append mid1 ws alt mid2 fuel rest hm1no hws hane had hm2no hfne hfd
  simp [k2Match, e1, e2, e3]

theorem parse_line_k1 (dateStr : String) (w1 : List Char) (h1 h2 m1 m2 s1 s2 : Char)
    (ms us w2 mid label : List Char)
    (hw1h : w1.head? = some ' ') (hw1 : ∀ c ∈ w1, pySpace c = true)
    (hd1 : h1.isDigit = true) (hd2 : h2.isDigit = true)
    (hd3 : m1.isDigit = true) (hd4 : m2.isDigit = true)
    (hd5 : s1.isDigit = true) (hd6 : s2.isDigit = true)
    (hmsne : ms ≠ []) (hmsd : ∀ c ∈ ms, c.isDigit = true)
    (husne : us ≠ []) (husd : ∀ c ∈ us, c.isDigit = true)
    (hw2ne : w2 ≠ []) (hw2 : ∀ c ∈ w2, pySpace c = true)
    (hmid : headNotSpace mid = true)
    (hlne : label ≠ []) (hld : label.all Char.isDigit = true) :
    parse_line ('K' :: '1' :: (w1 ++ (h1 :: h2 :: ':' :: m1 :: m2 :: ':' :: s1 :: s2 :: '.' ::
      (ms ++ '.' :: (us ++ (w2 ++ (mid ++ ':' :: label))))))) dateStr =
      some
      { event_time := mkEventTime dateStr [h1, h2] [m1, m2] [s1, s2], ptype := 1,
        callsign := some label.asString, height := none, fuel := none, alarm := 0,
        faithfulness := 50, sent := 1 } := by
  rcases w1 with _ | ⟨cw, w1'⟩
  · exact absurd hw1h (by simp)
  · have hcw : cw = ' ' := (head_cons_char hw1h).symm
    subst hcw
    have hk1 := k1Match_append (' ' :: w1') h1 h2 m1 m2 s1 s2 ms us w2 mid label
      (by simp) hw1 hd1 hd2 hd3 hd4 hd5 hd6 hmsne hmsd husne husd hw2ne hw2 hmid hlne hld
    have hre : ('K' :: '1' :: ((' ' :: w1') ++ (h1 :: h2 :: ':' :: m1 :: m2 :: ':' :: s1 ::
        s2 :: '.' :: (ms ++ '.' :: (us ++ (w2 ++ (mid ++ ':' :: label))))))) =
        ('K' :: '1' :: ((' ' :: w1') ++ (h1 :: h2 :: ':' :: m1 :: m2 :: ':' :: s1 :: s2 ::
        '.' :: (ms ++ '.' :: (us ++ (w2 ++ mid)))))) ++ (':' :: label) := by
      simp [List.cons_append, List.append_assoc]
    have hlast : ∀ c, ('K' :: '1' :: ((' ' :: w1') ++ (h1 :: h2 :: ':' :: m1 :: m2 :: ':' ::
        s1 :: s2 :: '.' :: (ms ++ '.' :: (us ++ (w2 ++ (mid ++ ':' :: label))))))).getLast? =
        some c → pySpace c = false := by
      intro c hc
      rw [hre, List.getLast?_append_of_ne_nil _ (by simp)] at hc
      rcases label with _ | ⟨d, lab'⟩
      · exact absurd rfl hlne
      · rw [show ((':' : Char) :: d :: lab') = [':'] ++ (d :: lab') from rfl,
          List.getLast?_append_of_ne_nil _ (by simp)] at hc
        exact digit_not_space (all_getLast hld c hc)
    have hstrip := pyStrip_eq_self (fun c hc => by rw [head_cons_char hc]; decide) hlast
    rw [parse_line, hstrip]
    rw [if_neg (by simp), if_pos (by simp [List.cons_append])]
    simp only [List.cons_append] at hk1
    simp [parse_k1_packet, hk1]

theorem parse_line_k2 (dateStr : String) (w1 : List Char) (h1 h2 m1 m2 s1 s2 : Char)
    (ms us w2 mid1 ws alt mid2 fuel rest : List Char)
    (hw1h : w1.head? = some ' ') (hw1 : ∀ c ∈ w1, pySpace c = true)
    (hd1 : h1.isDigit = true) (hd2 : h2.isDigit = true)
    (hd3 : m1.isDigit = true) (hd4 : m2.isDigit = true)
    (hd5 : s1.isDigit = true) (hd6 : s2.isDigit = true)
    (hmsne : ms ≠ []) (hmsd : ∀ c ∈ ms, c.isDigit = true)
    (husne : us ≠ []) (husd : ∀ c ∈ us, c.isDigit = true)
    (hw2ne : w2 ≠ []) (hw2 : ∀ c ∈ w2, pySpace c = true)
    (hm1h : headNotSpace mid1 = true) (hm1no : ¬ (['F', 'L'] <:+: mid1))
    (hws : ∀ c ∈ ws, pySpace c = true)
    (hane : alt ≠ []) (had : ∀ c ∈ alt, c.isDigit = true)
    (hm2no : ¬ (['F', ':'] <:+: mid2))
    (hfne : fuel ≠ []) (hfd : ∀ c ∈ fuel, c.isDigit = true)
    (hrl : lastNotSpace ('%' :: rest) = true) :
    parse_line ('K' :: '2' :: (w1 ++ (h1 :: h2 :: ':' :: m1 :: m2 :: ':' :: s1 :: s2 :: '.' ::
      (ms ++ '.' :: (us ++ (w2 ++ (mid1 ++ 'F' :: 'L' :: (ws ++ (alt ++ 'm' ::
        (mid2 ++ 'F' :: ':' :: (fuel ++ '%' :: rest)))))))))))  dateStr =
      some
      { event_time := mkEventTime dateStr [h1, h2] [m1, m2] [s1, s2], ptype := 2,
        callsign := none, height := some (digitsToNat alt : Int),
        fuel := some (digitsToNat fuel : Int), alarm := 0, faithfulness := 0,
        sent := 0 } := by
  rcases w1 with _ | ⟨cw, w1'⟩
  · exact absurd hw1h (by simp)
  · have hcw : cw = ' ' := (head_cons_char hw1h).symm
    subst hcw
    have hk2 := k2Match_append (' ' :: w1') h1 h2 m1 m2 s1 s2 ms us w2 mid1 ws alt mid2
      fuel rest (by simp) hw1 hd1 hd2 hd3 hd4 hd5 hd6 hmsne hmsd husne husd hw2ne hw2
      hm1h hm1no hws hane had hm2no hfne hfd
    have hre : ('K' :: '2' :: ((' ' :: w1') ++ (h1 :: h2 :: ':' :: m1 :: m2 :: ':' :: s1 ::
        s2 :: '.' :: (ms ++ '.' :: (us ++ (w2 ++ (mid1 ++ 'F' :: 'L' :: (ws ++ (alt ++ 'm' ::
        (mid2 ++ 'F' :: ':' :: (fuel ++ '%' :: rest))))))))))) =
        ('K' :: '2' :: ((' ' :: w1') ++ (h1 :: h2 :: ':' :: m1 :: m2 :: ':' :: s1 :: s2 ::
        '.' :: (ms ++ '.' :: (us ++ (w2 ++ (mid1 ++ 'F' :: 'L' :: (ws ++ (alt ++ 'm' ::
        (mid2 ++ 'F' :: ':' :: fuel))))))))))  ++ ('%' :: rest) := by
      simp [List.cons_append, List.append_assoc]
    have hlast : ∀ c, ('K' :: '2' :: ((' ' :: w1') ++ (h1 :: h2 :: ':' :: m1 :: m2 :: ':' ::
        s1 :: s2 :: '.' :: (ms ++ '.' :: (us ++ (w2 ++ (mid1 ++ 'F' :: 'L' :: (ws ++
        (alt ++ 'm' :: (mid2 ++ 'F' :: ':' :: (fuel ++ '%' :: rest))))))))))).getLast? =
        some c → pySpace c = false := by
      intro c hc
      rw [hre, List.getLast?_append_of_ne_nil _ (by simp)] at hc
      exact lastNotSpace_spec hrl c hc
    have hstrip := pyStrip_eq_self (fun c hc => by rw [head_cons_char hc]; decide) hlast
    rw [parse_line, hstrip]
    rw [if_neg (by simp), if_neg (by simp [List.cons_append]),
      if_pos (by simp [List.cons_append])]
    simp only [List.cons_append] at hk2
    simp [parse_k2_packet, hk2]

theorem parse_line_other (l : List Char) (dateStr : String)
    (h1 : (pyStrip l).take 3 ≠ ['K', '1', ' '])
    (h2 : (pyStrip l).take 3 ≠ ['K', '2', ' ']) :
    parse_line l dateStr = none := by
  rw [parse_line]
  by_cases he : pyStrip l = []
  · rw [if_pos he]
  · rw [if_neg he, if_neg h1, if_neg h2]

theorem C8_line_grammar (dateStr : String) :
    (∀ (w1 : List Char) (h1 h2 m1 m2 s1 s2 : Char) (ms us w2 mid label : List Char),
      w1.head? = some ' ' → (∀ c ∈ w1, pySpace c = true) →
      h1.isDigit = true → h2.isDigit = true → m1.isDigit = true → m2.isDigit = true →
      s1.isDigit = true → s2.isDigit = true →
      ms ≠ [] → (∀ c ∈ ms, c.isDigit = true) →
      us ≠ [] → (∀ c ∈ us, c.isDigit = true) →
      w2 ≠ [] → (∀ c ∈ w2, pySpace c = true) →
      headNotSpace mid = true →
      label ≠ [] → label.all Char.isDigit = true →
      parse_line ('K' :: '1' :: (w1 ++ (h1 :: h2 :: ':' :: m1 :: m2 :: ':' :: s1 :: s2 ::
        '.' :: (ms ++ '.' :: (us ++ (w2 ++ (mid ++ ':' :: label))))))) dateStr =
        some
        { event_time := mkEventTime dateStr [h1, h2] [m1, m2] [s1, s2], ptype := 1,
          callsign := some label.asString, height := none, fuel := none, alarm := 0,
          faithfulness := 50, sent := 1 }) ∧
    (∀ (w1 : List Char) (h1 h2 m1 m2 s1 s2 : Char)
        (ms us w2 mid1 ws alt mid2 fuel rest : List Char),
      w1.head? = some ' ' → (∀ c ∈ w1, pySpace c = true) →
      h1.isDigit = true → h2.isDigit = true → m1.isDigit = true → m2.isDigit = true →
      s1.isDigit = true → s2.isDigit = true →
      ms ≠ [] → (∀ c ∈ ms, c.isDigit = true) →
      us ≠ [] → (∀ c ∈ us, c.isDigit = true) →
      w2 ≠ [] → (∀ c ∈ w2, pySpace c = true) →
      headNotSpace mid1 = true → ¬ (['F', 'L'] <:+: mid1) →
      (∀ c ∈ ws, pySpace c = true) →
      alt ≠ [] → (∀ c ∈ alt, c.isDigit = true) →
      ¬ (['F', ':'] <:+: mid2) →
      fuel ≠ [] → (∀ c ∈ fuel, c.isDigit = true) →
      lastNotSpace ('%' :: rest) = true →
      parse_line ('K' :: '2' :: (w1 ++ (h1 :: h2 :: ':' :: m1 :: m2 :: ':' :: s1 :: s2 ::
        '.' :: (ms ++ '.' :: (us ++ (w2 ++ (mid1 ++ 'F' :: 'L' :: (ws ++ (alt ++ 'm' ::
        (mid2 ++ 'F' :: ':' :: (fuel ++ '%' :: rest))))))))))) dateStr =
        some
        { event_time := mkEventTime dateStr [h1, h2] [m1, m2] [s1, s2], ptype := 2,
          callsign := none, height := some (digitsToNat alt : Int),
          fuel := some (digitsToNat fuel : Int), alarm := 0, faithfulness := 0,
          sent := 0 }) ∧
    parse_line badK2NoFuel.toList dateStr = none ∧
    parse_line badK2Alt.toList dateStr = none ∧
    (∀ l : List Char, (pyStrip l).take 3 ≠ ['K', '1', ' '] →
      (pyStrip l).take 3 ≠ ['K', '2', ' '] → parse_line l dateStr = none) := by
  refine ⟨?_, ?_, ?_, ?_, fun l => parse_line_other l dateStr⟩
  · intro w1 h1 h2 m1 m2 s1 s2 ms us w2 mid label hw1h hw1 hd1 hd2 hd3 hd4 hd5 hd6
      hmsne hmsd husne husd hw2ne hw2 hmid hlne hld
    exact parse_line_k1 dateStr w1 h1 h2 m1 m2 s1 s2 ms us w2 mid label hw1h hw1
      hd1 hd2 hd3 hd4 hd5 hd6 hmsne hmsd husne husd hw2ne hw2 hmid hlne hld
  · intro w1 h1 h2 m1 m2 s1 s2 ms us w2 mid1 ws alt mid2 fuel rest hw1h hw1 hd1 hd2 hd3
      hd4 hd5 hd6 hmsne hmsd husne husd hw2ne hw2 hm1h hm1no hws hane had hm2no hfne
      hfd hrl
    exact parse_line_k2 dateStr w1 h1 h2 m1 m2 s1 s2 ms us w2 mid1 ws alt mid2 fuel rest
      hw1h hw1 hd1 hd2 hd3 hd4 hd5 hd6 hmsne hmsd husne husd hw2ne hw2 hm1h hm1no hws
      hane had hm2no hfne hfd hrl
  · rw [parse_line, if_neg (by decide), if_neg (by decide), if_pos (by decide)]
    simp only [parse_k2_packet,
      show k2Match (pyStrip badK2NoFuel.toList) = none from by decide]
  · rw [parse_line, if_neg (by decide), if_neg (by decide), if_pos (by decide)]
    simp only [parse_k2_packet,
      show k2Match (pyStrip badK2Alt.toList) = none from by decide]

theorem C8_line_grammar_witness :
    parse_line ('K' :: '1' :: ([' '] ++ ('1' :: '1' :: ':' :: '1' :: '1' :: ':' :: '3' ::
      '8' :: '.' :: ("370".toList ++ '.' :: ("366".toList ++ ([' '] ++
      ("[ 8832] {018} **** ".toList ++ ':' :: "10437".toList))))))) "2024-01-01" =
      some
      { event_time := mkEventTime "2024-01-01" ['1', '1'] ['1', '1'] ['3', '8'],
        ptype := 1, callsign := some ("10437".toList).asString, height := none,
        fuel := none, alarm := 0, faithfulness := 50, sent := 1 } ∧
    parse_line ('K' :: '2' :: ([' '] ++ ('1' :: '1' :: ':' :: '1' :: '2' :: ':' :: '5' ::
      '4' :: '.' :: ("082".toList ++ '.' :: ("632".toList ++ ([' '] ++
      ("[ 8706] {017} **** ".toList ++ 'F' :: 'L' :: ([' '] ++ ("5360".toList ++ 'm' ::
      (" [F176]+  ".toList ++ 'F' :: ':' :: ("40".toList ++ '%' :: ([] : List Char))))))))))))
      "2024-01-01" =
      some
      { event_time := mkEventTime "2024-01-01" ['1', '1'] ['1', '2'] ['5', '4'],
        ptype := 2, callsign := none, height := some (digitsToNat "5360".toList : Int),
        fuel := some (digitsToNat "40".toList : Int), alarm := 0, faithfulness := 0,
        sent := 0 } ∧
    parse_line (String.toList "decoder started on port 31003") "2024-01-01" = none :=
  ⟨(C8_line_grammar "2024-01-01").1 [' '] '1' '1' '1' '1' '3' '8' "370".toList
      "366".toList [' '] "[ 8832] {018} **** ".toList "10437".toList (by decide)
      (by decide) (by decide) (by decide) (by decide) (by decide) (by decide) (by decide)
      (by decide) (by decide) (by decide) (by decide) (by decide) (by decide) (by decide)
      (by decide) (by decide),
   (C8_line_grammar "2024-01-01").2.1 [' '] '1' '1' '1' '2' '5' '4' "082".toList
      "632".toList [' '] "[ 8706] {017} **** ".toList [' '] "5360".toList
      " [F176]+  ".toList "40".toList [] (by decide) (by decide) (by decide) (by decide)
      (by decide) (by decide) (by decide) (by decide) (by decide) (by decide) (by decide)
      (by decide) (by decide) (by decide) (by decide) (by decide) (by decide) (by decide)
      (by decide) (by decide) (by decide) (by decide) (by decide),
   (C8_line_grammar "2024-01-01").2.2.2.2 (String.toList "decoder started on port 31003")
      (by decide) (by decide)⟩
